import Mathlib

/-!
# takeme-id/core: balance ledger, transaction commit and bulk execution

A shallow embedding of `usecase/balance.go`, `usecase/transaction/base.go` and
`usecase/transaction/transfer/transfer_bank/bulk.go`.

Stateful Go code is written in state-passing style: a function that receives a
`mongo.SessionContext` takes the store seen through that session and returns the
store it leaves behind together with its `error` result (`none` is Go's `nil`).
The store a function leaves behind is returned on the error paths too, because a
Go function that fails half way has already performed its earlier writes.
-/

/-! ## Errors -/

/-- The error codes of package `utils` that the embedded functions name. Their
values are declared outside the embedded files, so they are kept symbolic. -/
inductive ErrorCode
  | InsufficientBalance
  | DBStartTransactionFailed
  | BulkNotFound
  | InvalidBalanceID
  | RequestAccessBalanceNotFound
  | RequestAccessBalanceAlreadyProcced
  | AccessBalanceAlreadyHave
  | InvalidBalanceOwner
  | InvalidAccessType
  | unlisted (n : Nat)
  deriving DecidableEq, Repr

/-- The two constructors of `utils.CustomError` used by the embedded files. -/
inductive ErrorKind
  | BadRequest
  | InternalServer
  deriving DecidableEq, Repr

/-- A Go `error` value. `custom` is a value of dynamic type `utils.CustomError`;
`other` is any error of another dynamic type, carrying the text its `Error()`
method returns. -/
inductive GoError
  | custom (kind : ErrorKind) (Code : ErrorCode) (Message : String)
  | other (text : String)
  deriving DecidableEq, Repr

namespace utils

/-- Go: `utils.ErrorBadRequest(code, message)`. -/
def ErrorBadRequest (code : ErrorCode) (message : String) : GoError :=
  GoError.custom ErrorKind.BadRequest code message

/-- Go: `utils.ErrorInternalServer(code, message)`. -/
def ErrorInternalServer (code : ErrorCode) (message : String) : GoError :=
  GoError.custom ErrorKind.InternalServer code message

end utils

/-! ## Data model -/

/-- A `primitive.ObjectID`, identified with its hexadecimal rendering. -/
structure ObjectID where
  Hex : String
  deriving DecidableEq, Repr

/-- Modelled from the spec: `domain.Balance` is declared outside the embedded
files. The spec gives `Amount` as an integer in minor units; the embedded code
reads `ID`, `Amount`, `CorporateID` and `Owner.Type`. -/
structure Balance where
  ID : ObjectID
  CorporateID : ObjectID
  OwnerType : String
  Amount : Int
  deriving DecidableEq, Repr

/-- Modelled from the spec: `domain.Statement` is declared outside the embedded
files. `Balance` is the resulting-balance field stamped by the ledger engine and
`Reference` is the correlation reference. -/
structure Statement where
  BalanceID : ObjectID
  Deposit : Int
  Withdraw : Int
  Balance : Int
  Reference : String
  deriving DecidableEq, Repr

/-- Modelled from the spec: `domain.Transaction`, the durable record of a
business event; the embedded code only stores it. -/
structure Transaction where
  TransactionCode : String
  Amount : Int
  deriving DecidableEq, Repr

/-- The documents visible through one session: the balance collection, the
append-only statement ledger and the transaction collection. -/
structure Store where
  balances : List Balance
  statements : List Statement
  transactions : List Transaction
  deriving DecidableEq, Repr

/-- Storage-layer failures. Every call of package `service` may fail for reasons
outside the program (connection loss, write conflict); each field decides, from
the store the call sees and its argument, whether the call fails and with which
error. -/
structure Faults where
  BalanceByID : Store → String → Option GoError
  BalanceUpdate : Store → Balance → Option GoError
  StatementSaveOne : Store → Statement → Option GoError
  TransactionSaveOne : Store → Transaction → Option GoError
  StartTransaction : Store → Option GoError
  Commit : Store → Option GoError

/-- The storage layer that never fails on its own account. -/
def Faults.none : Faults where
  BalanceByID := fun _ _ => Option.none
  BalanceUpdate := fun _ _ => Option.none
  StatementSaveOne := fun _ _ => Option.none
  TransactionSaveOne := fun _ _ => Option.none
  StartTransaction := fun _ => Option.none
  Commit := fun _ => Option.none

/-! ## Package `service` -/

namespace service

/-- The first balance document whose `_id` has the given hex rendering. -/
def findBalance (balanceID : String) : List Balance → Option Balance
  | [] => none
  | b :: rest => if b.ID.Hex = balanceID then some b else findBalance balanceID rest

/-- Replace the first balance document with the `_id` of `balance` (an
update-one by `_id`); a collection without such a document is left as it is. -/
def replaceBalance (balance : Balance) : List Balance → List Balance
  | [] => []
  | b :: rest =>
    if b.ID.Hex = balance.ID.Hex then balance :: rest
    else b :: replaceBalance balance rest

/-- Modelled from the spec: `service.BalanceByID` is outside the embedded files.
It loads the current Balance by ID; a storage failure or a missing document is
reported as an error (the NotFound kind, `InvalidBalanceID`). -/
def BalanceByID (F : Faults) (balanceID : String) (session : Store) : Except GoError Balance :=
  match F.BalanceByID session balanceID with
  | some e => Except.error e
  | none =>
    match findBalance balanceID session.balances with
    | some b => Except.ok b
    | none => Except.error (utils.ErrorBadRequest ErrorCode.InvalidBalanceID "Balance not found")

/-- Modelled from the spec: `service.BalanceUpdate` is outside the embedded
files. It persists the Balance: the stored document with that ID is replaced,
unless the storage layer fails, in which case nothing is written. -/
def BalanceUpdate (F : Faults) (balance : Balance) (session : Store) : Store × Option GoError :=
  match F.BalanceUpdate session balance with
  | some e => (session, some e)
  | none => ({ session with balances := replaceBalance balance session.balances }, none)

/-- Modelled from the spec: `service.StatementSaveOne` is outside the embedded
files. It persists the Statement by appending it to the ledger, unless the
storage layer fails, in which case nothing is written. -/
def StatementSaveOne (F : Faults) (statement : Statement) (session : Store) : Store × Option GoError :=
  match F.StatementSaveOne session statement with
  | some e => (session, some e)
  | none => ({ session with statements := session.statements ++ [statement] }, none)

/-- Modelled from the spec: `service.TransactionSaveOne` is outside the embedded
files. It persists the Transaction record, unless the storage layer fails. -/
def TransactionSaveOne (F : Faults) (transaction : Transaction) (session : Store) :
    Store × Option GoError :=
  match F.TransactionSaveOne session transaction with
  | some e => (session, some e)
  | none => ({ session with transactions := session.transactions ++ [transaction] }, none)

end service

/-! ## Package `usecase`: the balance ledger engine -/

namespace usecase

/-- Go: `usecase.WithdrawBalance` (balance.go). -/
def WithdrawBalance (F : Faults) (statement : Statement) (session : Store) :
    Store × Option GoError :=
  let balanceID := statement.BalanceID.Hex
  let amount := statement.Withdraw
  match service.BalanceByID F balanceID session with
  | Except.error err => (session, some err)
  | Except.ok balance =>
    if balance.Amount < amount then
      (session, some (utils.ErrorBadRequest ErrorCode.InsufficientBalance "Insufficient balance"))
    else
      let balance := { balance with Amount := balance.Amount - amount }
      match service.BalanceUpdate F balance session with
      | (session, some err) => (session, some err)
      | (session, none) =>
        let statement := { statement with Balance := balance.Amount }
        match service.StatementSaveOne F statement session with
        | (session, some err) => (session, some err)
        | (session, none) => (session, none)

/-- Go: `usecase.DepositBalance` (balance.go). -/
def DepositBalance (F : Faults) (statement : Statement) (session : Store) :
    Store × Option GoError :=
  let balanceID := statement.BalanceID.Hex
  let amount := statement.Deposit
  match service.BalanceByID F balanceID session with
  | Except.error err => (session, some err)
  | Except.ok balance =>
    let balance := { balance with Amount := balance.Amount + amount }
    match service.BalanceUpdate F balance session with
    | (session, some err) => (session, some err)
    | (session, none) =>
      let statement := { statement with Balance := balance.Amount }
      match service.StatementSaveOne F statement session with
      | (session, some err) => (session, some err)
      | (session, none) => (session, none)

/-- The amount stored for the balance with the given ID, if there is one. -/
def storedAmount (session : Store) (balanceID : String) : Option Int :=
  (service.findBalance balanceID session.balances).map (fun b => b.Amount)

end usecase

/-! ## Package `transaction`: the commit protocol -/

/-- What a unit of work does to its session, in order. -/
inductive TxEvent
  | StartTransaction
  | AbortTransaction
  | TransactionSaveOne
  | CommitWithRetry
  deriving DecidableEq, Repr

/-- A `mongo.SessionContext`: the committed documents that other readers see,
the documents as seen inside the transaction opened on the session, and the
session calls made so far. -/
structure Session where
  committed : Store
  snapshot : Store
  log : List TxEvent
  deriving DecidableEq, Repr

namespace session

/-- The driver call `session.StartTransaction` with snapshot read concern: on
success the transaction sees the committed documents. -/
def StartTransaction (F : Faults) (s : Session) : Session × Option GoError :=
  match F.StartTransaction s.committed with
  | some e => ({ s with log := s.log ++ [TxEvent.StartTransaction] }, some e)
  | none =>
    ({ s with snapshot := s.committed, log := s.log ++ [TxEvent.StartTransaction] }, none)

/-- The driver call `session.AbortTransaction`: the writes made inside the
transaction are discarded, the committed documents stay as they were. -/
def AbortTransaction (s : Session) : Session :=
  { s with snapshot := s.committed, log := s.log ++ [TxEvent.AbortTransaction] }

/-- Run a `service` call inside the transaction opened on the session. -/
def run (f : Store → Store × Option GoError) (s : Session) : Session × Option GoError :=
  ({ s with snapshot := (f s.snapshot).1 }, (f s.snapshot).2)

end session

namespace database

/-- Modelled from the spec: `database.CommitWithRetry` is outside the embedded
files. A commit that succeeds makes the writes of the transaction the committed
documents; a commit that ends in an error leaves the committed documents as they
were. -/
def CommitWithRetry (F : Faults) (s : Session) : Session × Option GoError :=
  match F.Commit s.snapshot with
  | some e => ({ s with log := s.log ++ [TxEvent.CommitWithRetry] }, some e)
  | none =>
    ({ s with committed := s.snapshot, log := s.log ++ [TxEvent.CommitWithRetry] }, none)

end database

namespace transaction

/-- Go: `adjustBalanceWithStatement` (base.go). -/
def adjustBalanceWithStatement (F : Faults) : List Statement → Store → Store × Option GoError
  | [], session => (session, none)
  | statement :: rest, session =>
    if statement.Deposit ≠ 0 then
      match usecase.DepositBalance F statement session with
      | (session, some err) => (session, some err)
      | (session, none) => adjustBalanceWithStatement F rest session
    else if statement.Withdraw ≠ 0 then
      match usecase.WithdrawBalance F statement session with
      | (session, some err) => (session, some err)
      | (session, none) => adjustBalanceWithStatement F rest session
    else adjustBalanceWithStatement F rest session

/-- Go: the closure `function` of `Base.Commit` (base.go), the unit of work
handed to `database.RunTransactionWithRetry`. -/
def Commit.function (F : Faults) (statements : List Statement) (transaction : Transaction)
    (s : Session) : Session × Option GoError :=
  match session.StartTransaction F s with
  | (s, some _) =>
    (session.AbortTransaction s,
      some (utils.ErrorInternalServer ErrorCode.DBStartTransactionFailed
        "Initialize balance start transaction failed"))
  | (s, none) =>
    match session.run (adjustBalanceWithStatement F statements) s with
    | (s, some err) => (session.AbortTransaction s, some err)
    | (s, none) =>
      match session.run (service.TransactionSaveOne F transaction)
          { s with log := s.log ++ [TxEvent.TransactionSaveOne] } with
      | (s, some err) => (session.AbortTransaction s, some err)
      | (s, none) => database.CommitWithRetry F s

/-- Go: the closure `function` of `Base.CommitRollback` (base.go). -/
def CommitRollback.function (F : Faults) (statements : List Statement) (s : Session) :
    Session × Option GoError :=
  match session.StartTransaction F s with
  | (s, some _) =>
    (session.AbortTransaction s,
      some (utils.ErrorInternalServer ErrorCode.DBStartTransactionFailed
        "Initialize balance start transaction failed"))
  | (s, none) =>
    match session.run (adjustBalanceWithStatement F statements) s with
    | (s, some err) => (session.AbortTransaction s, some err)
    | (s, none) => database.CommitWithRetry F s

end transaction

namespace usecase

/-- Modelled from the spec: `CalculateFee.RollbackFeeStatement` is outside the
embedded files. For each input statement it emits a statement with Deposit and
Withdraw swapped, same BalanceID and correlation reference. -/
def RollbackFeeStatement (statements : List Statement) : List Statement :=
  statements.map (fun s => { s with Deposit := s.Withdraw, Withdraw := s.Deposit })

end usecase

/-- Add `delta` to the amount of the first balance document with the given ID. -/
def bump (balanceID : String) (delta : Int) : List Balance → List Balance
  | [] => []
  | b :: rest =>
    if b.ID.Hex = balanceID then { b with Amount := b.Amount + delta } :: rest
    else b :: bump balanceID delta rest

/-- The change of amount that `adjustBalanceWithStatement` makes for one
statement that it applies without error. -/
def effect (s : Statement) : Int :=
  if s.Deposit ≠ 0 then s.Deposit else if s.Withdraw ≠ 0 then - s.Withdraw else 0

/-- The changes of amount of a list of statements, made in list order. -/
def applyEffects : List Statement → List Balance → List Balance
  | [], l => l
  | s :: rest, l => applyEffects rest (bump s.BalanceID.Hex (effect s) l)

/-! ## Package `transfer_bank`: bulk inquiry and bulk transfer -/

/-- The `Status` string of a bulk job: the three constants of package `domain`
(their string values are declared outside the embedded files) and any other
string, the empty string of a zero-valued job included. -/
inductive BulkStatus
  | BULK_UNEXECUTED_STATUS
  | BULK_PROGRESS_STATUS
  | BULK_COMPLETED_STATUS
  | other (s : String)
  deriving DecidableEq, Repr

/-- Go: `domain.ActorObject`, as far as the embedded code reads it. -/
structure ActorObject where
  ID : ObjectID
  ActorType : String
  deriving DecidableEq, Repr

/-- Go: `domain.AccessBalance`, one entry of an actor's balance-access list. -/
structure AccessBalance where
  BalanceID : ObjectID
  Access : String
  deriving DecidableEq, Repr

/-- Go: a value behind the interface `domain.ActorAble`, as far as the embedded
code reads it. -/
structure ActorAble where
  ActorID : ObjectID
  ListBalance : List AccessBalance
  deriving DecidableEq, Repr

/-- Go: `domain.Corporate`, as far as the embedded code reads it. -/
structure Corporate where
  ID : ObjectID
  BulkInquiryCallbackURL : String
  BulkTransferCallbackURL : String
  deriving DecidableEq, Repr

/-- Go: `domain.Bank`, the destination account of a transfer and the answer of a
bank-account inquiry. -/
structure Bank where
  BankName : String
  AccountNumber : String
  Name : String
  deriving DecidableEq, Repr

/-- Go: `domain.Transfer`, one item of a bulk transfer job. -/
structure Transfer where
  Number : Int
  ToBankAccount : Bank
  Amount : Int
  ExternalID : String
  TransactionCode : String
  Reason : String
  deriving DecidableEq, Repr

/-- Go: `domain.BulkTransfer`. -/
structure BulkTransfer where
  ID : ObjectID
  BalanceID : ObjectID
  Owner : ActorObject
  Time : String
  Status : BulkStatus
  FailedNumber : List Int
  List : List Transfer
  deriving DecidableEq, Repr

/-- Go: `domain.Inquiry`, one item of a bulk inquiry job. -/
structure Inquiry where
  Number : Int
  AccountNumber : String
  BankName : String
  AccountName : String
  Valid : Bool
  Reason : String
  deriving DecidableEq, Repr

/-- Go: `domain.BulkInquiry`. -/
structure BulkInquiry where
  ID : ObjectID
  Status : BulkStatus
  List : List Inquiry
  deriving DecidableEq, Repr

/-- The arguments of one call of `UserTransferBank.Execute`. -/
structure ExecuteCall where
  corporate : Corporate
  user : ActorAble
  toBankAccount : Bank
  balanceID : String
  amount : Int
  pin : String
  externalID : String
  deriving DecidableEq, Repr

/-- What a bulk execution does outside its own variables, in program order. -/
inductive BulkEvent
  | BulkTransferUpdateOne (bulk : BulkTransfer)
  | BulkInquiryUpdateOne (bulk : BulkInquiry)
  | Execute (call : ExecuteCall)
  | InquiryBankAccount (accountNumber bankName : String)
  | PublishBulkCallback (actor : ActorObject) (bulkID : String) (status : BulkStatus)
      (url : String)
  deriving DecidableEq, Repr

/-- The collaborators of the bulk engine that live outside the embedded files.
`W` is the state of everything they touch (balances, ledger, the bank network):
`Execute` and `InquiryBankAccount` read and change it, so the outcome for one
item may depend on the items before it. `ResponseDescription code` is the entry
of the table `utils.ResponseDescription` under the key made of `code` and the
language `en`, the empty string when the table has no such entry.
`CustomErrorText` is the `Error()` method of `utils.CustomError`. -/
structure BulkEnv (W : Type) where
  Execute : W → ExecuteCall → W × Transaction × Option GoError
  InquiryBankAccount : W → String → String → W × Bank × Option GoError
  ResponseDescription : ErrorCode → String
  CustomErrorText : ErrorKind → ErrorCode → String → String
  BulkTransferByID : String → BulkTransfer × Option GoError
  ValidateActorPIN : ActorAble → String → Option GoError
  ValidateAccessBalance : ActorAble → String → Option GoError
  ValidateIsVerify : ActorAble → Option GoError

/-- Go: `err.Error()`. -/
def errorText {W : Type} (E : BulkEnv W) : GoError → String
  | GoError.other text => text
  | GoError.custom kind code message => E.CustomErrorText kind code message

/-- Go: the assignment `list[index].field = value`, written as a change `f` of
the element at `index`. -/
def modifyAt {α : Type} (f : α → α) : Nat → List α → List α
  | _, [] => []
  | 0, a :: l => f a :: l
  | n + 1, a :: l => a :: modifyAt f n l

/-- The zero value `domain.BulkTransfer{}`. -/
def BulkTransfer.zero : BulkTransfer :=
  { ID := ⟨""⟩, BalanceID := ⟨""⟩, Owner := ⟨⟨""⟩, ""⟩, Time := "", List := [],
    Status := BulkStatus.other "", FailedNumber := [] }

/-- The call of `UserTransferBank.Execute` that `executeBulkTransfer` makes for
one item of a job on the balance with the given hex ID. -/
def callOf (corporate : Corporate) (user : ActorAble) (pin : String) (balanceID : String)
    (transfer : Transfer) : ExecuteCall :=
  { corporate := corporate, user := user, toBankAccount := transfer.ToBankAccount,
    balanceID := balanceID, amount := transfer.Amount, pin := pin,
    externalID := transfer.ExternalID }

namespace transfer_bank

/-- The variables of `executeBulkTransfer` that change while it runs: the world
of its collaborators, the job, and the events so far. -/
structure TransferRun (W : Type) where
  world : W
  bulk : BulkTransfer
  trace : List BulkEvent

/-- Go: the `for index, transfer := range transfers` loop of
`executeBulkTransfer` (bulk.go), entered at `index` with `transfers[index:]`
still to process. -/
def executeBulkTransfer.loop {W : Type} (E : BulkEnv W) (corporate : Corporate)
    (user : ActorAble) (pin : String) : Nat → List Transfer → TransferRun W → TransferRun W
  | _, [], run => run
  | index, transfer :: rest, run =>
    let call := callOf corporate user pin run.bulk.BalanceID.Hex transfer
    match E.Execute run.world call with
    | (world, _, some (GoError.other _)) =>
      executeBulkTransfer.loop E corporate user pin (index + 1) rest
        { world := world,
          bulk := { run.bulk with
            List := modifyAt (fun t => { t with Reason := "Internal server error" }) index
              run.bulk.List },
          trace := run.trace ++ [BulkEvent.Execute call] }
    | (world, _, some (GoError.custom _ code _)) =>
      executeBulkTransfer.loop E corporate user pin (index + 1) rest
        { world := world,
          bulk := { run.bulk with
            List := modifyAt (fun t => { t with Reason := E.ResponseDescription code }) index
              run.bulk.List,
            FailedNumber := run.bulk.FailedNumber ++ [transfer.Number] },
          trace := run.trace ++ [BulkEvent.Execute call] }
    | (world, trx, none) =>
      executeBulkTransfer.loop E corporate user pin (index + 1) rest
        { world := world,
          bulk := { run.bulk with
            List := modifyAt (fun t => { t with TransactionCode := trx.TransactionCode }) index
              run.bulk.List },
          trace := run.trace ++ [BulkEvent.Execute call] }

/-- Go: `executeBulkTransfer` (bulk.go). The result holds the job as last
persisted and every outside call in order. -/
def executeBulkTransfer {W : Type} (E : BulkEnv W) (w : W) (corporate : Corporate)
    (user : ActorAble) (pin : String) (bulk : BulkTransfer) : TransferRun W :=
  let bulk := { bulk with Status := BulkStatus.BULK_PROGRESS_STATUS }
  let run : TransferRun W :=
    { world := w, bulk := bulk, trace := [BulkEvent.BulkTransferUpdateOne bulk] }
  let transfers := bulk.List
  let run := executeBulkTransfer.loop E corporate user pin 0 transfers run
  let bulk := { run.bulk with Status := BulkStatus.BULK_COMPLETED_STATUS }
  { world := run.world, bulk := bulk,
    trace := run.trace ++ [BulkEvent.BulkTransferUpdateOne bulk,
      BulkEvent.PublishBulkCallback bulk.Owner bulk.ID.Hex bulk.Status
        corporate.BulkTransferCallbackURL] }

/-- The result of `ActorExecuteBulkTransfer`: its two return values and the
background executions it has launched with `go`. -/
structure ActorExecuteResult where
  bulk : BulkTransfer
  err : Option GoError
  launched : List BulkTransfer
  deriving DecidableEq, Repr

/-- Go: `ActorExecuteBulkTransfer` (bulk.go). -/
def ActorExecuteBulkTransfer {W : Type} (E : BulkEnv W) (user : ActorAble) (pin : String)
    (bulkID : String) : ActorExecuteResult :=
  match E.BulkTransferByID bulkID with
  | (bulk, err) =>
    if err ≠ none ∨ bulk.Time = "" ∨ bulk.Status ≠ BulkStatus.BULK_UNEXECUTED_STATUS then
      { bulk := BulkTransfer.zero,
        err := some (utils.ErrorBadRequest ErrorCode.BulkNotFound
          "Bulk Not found or already executed"),
        launched := [] }
    else
      match E.ValidateActorPIN user pin with
      | some err => { bulk := BulkTransfer.zero, err := some err, launched := [] }
      | none =>
        match E.ValidateAccessBalance user bulk.BalanceID.Hex with
        | some err => { bulk := BulkTransfer.zero, err := some err, launched := [] }
        | none =>
          match E.ValidateIsVerify user with
          | some err => { bulk := BulkTransfer.zero, err := some err, launched := [] }
          | none =>
            { bulk := { bulk with Status := BulkStatus.BULK_PROGRESS_STATUS },
              err := none, launched := [bulk] }

/-- The variables of `executeBulkInquiry` that change while it runs. -/
structure InquiryRun (W : Type) where
  world : W
  result : List Inquiry
  trace : List BulkEvent

/-- Go: the `for _, inq := range bulk.List` loop of `executeBulkInquiry`
(bulk.go). -/
def executeBulkInquiry.loop {W : Type} (E : BulkEnv W) : List Inquiry → InquiryRun W → InquiryRun W
  | [], run => run
  | inq :: rest, run =>
    match E.InquiryBankAccount run.world inq.AccountNumber inq.BankName with
    | (world, _, some err) =>
      executeBulkInquiry.loop E rest
        { world := world,
          result := run.result ++
            [{ AccountName := inq.AccountName, AccountNumber := inq.AccountNumber,
               BankName := inq.BankName, Number := inq.Number, Valid := false,
               Reason := if errorText E err ≠ "" then errorText E err
                 else "Invalid bank code or account number empty" }],
          trace := run.trace ++ [BulkEvent.InquiryBankAccount inq.AccountNumber inq.BankName] }
    | (world, bank, none) =>
      executeBulkInquiry.loop E rest
        { world := world,
          result := run.result ++
            [{ AccountName := bank.Name, AccountNumber := inq.AccountNumber,
               BankName := inq.BankName, Number := inq.Number, Valid := true, Reason := "" }],
          trace := run.trace ++ [BulkEvent.InquiryBankAccount inq.AccountNumber inq.BankName] }

/-- The result of `executeBulkInquiry`: the world it leaves, the job it hands to
`service.BulkInquiryUpdateOne`, and every outside call in order. -/
structure InquiryDone (W : Type) where
  world : W
  bulk : BulkInquiry
  trace : List BulkEvent

/-- Go: `executeBulkInquiry` (bulk.go). -/
def executeBulkInquiry {W : Type} (E : BulkEnv W) (w : W) (corporate : Corporate)
    (actor : ActorObject) (bulk : BulkInquiry) : InquiryDone W :=
  let run := executeBulkInquiry.loop E bulk.List { world := w, result := [], trace := [] }
  let bulk := { bulk with List := run.result, Status := BulkStatus.BULK_COMPLETED_STATUS }
  { world := run.world, bulk := bulk,
    trace := run.trace ++ [BulkEvent.BulkInquiryUpdateOne bulk,
      BulkEvent.PublishBulkCallback actor bulk.ID.Hex bulk.Status
        corporate.BulkInquiryCallbackURL] }

end transfer_bank

/-- What `Execute` returns for each item when the items are transferred one
after the other, in list order, starting from the world `w`. -/
def outcomes {W : Type} (E : BulkEnv W) (call : Transfer → ExecuteCall) :
    List Transfer → W → List (Transaction × Option GoError)
  | [], _ => []
  | t :: rest, w =>
    match E.Execute w (call t) with
    | (world, trx, err) => (trx, err) :: outcomes E call rest world

/-- What the loop body of `executeBulkTransfer` writes into an item, given what
`Execute` returned for it. -/
def stamp {W : Type} (E : BulkEnv W) (t : Transfer) (o : Transaction × Option GoError) :
    Transfer :=
  match o with
  | (_, some (GoError.other _)) => { t with Reason := "Internal server error" }
  | (_, some (GoError.custom _ code _)) => { t with Reason := E.ResponseDescription code }
  | (trx, none) => { t with TransactionCode := trx.TransactionCode }

/-- The numbers that the loop of `executeBulkTransfer` appends to `FailedNumber`,
given what `Execute` returned for each item. -/
def failedNumbers : List Transfer → List (Transaction × Option GoError) → List Int
  | t :: ts, (_, some (GoError.custom _ _ _)) :: os => t.Number :: failedNumbers ts os
  | _ :: ts, _ :: os => failedNumbers ts os
  | _, _ => []

/-- What `InquiryBankAccount` returns for each item when the items are looked up
one after the other, in list order, starting from the world `w`. -/
def inquiryOutcomes {W : Type} (E : BulkEnv W) : List Inquiry → W → List (Bank × Option GoError)
  | [], _ => []
  | inq :: rest, w =>
    match E.InquiryBankAccount w inq.AccountNumber inq.BankName with
    | (world, bank, err) => (bank, err) :: inquiryOutcomes E rest world

/-- The result item that the loop body of `executeBulkInquiry` appends for an
input item, given what `InquiryBankAccount` returned for it. -/
def answer {W : Type} (E : BulkEnv W) (inq : Inquiry) (o : Bank × Option GoError) : Inquiry :=
  match o with
  | (_, some err) =>
    { AccountName := inq.AccountName, AccountNumber := inq.AccountNumber,
      BankName := inq.BankName, Number := inq.Number, Valid := false,
      Reason := if errorText E err ≠ "" then errorText E err
        else "Invalid bank code or account number empty" }
  | (bank, none) =>
    { AccountName := bank.Name, AccountNumber := inq.AccountNumber,
      BankName := inq.BankName, Number := inq.Number, Valid := true, Reason := "" }

/-! ## Package `usecase`: the access-sharing workflow -/

/-- The `Status` string of an access request: the constants of package `domain`
(their string values are declared outside the embedded files; the embedded code
names PENDING and APPROVE, the spec names the rejected status) and any other
string. -/
inductive RequestStatus
  | REQUEST_ACCESS_BALANCE_STATUS_PENDING
  | REQUEST_ACCESS_BALANCE_STATUS_APPROVE
  | REQUEST_ACCESS_BALANCE_STATUS_REJECT
  | other (s : String)
  deriving DecidableEq, Repr

/-- Go: `domain.RequestAccessBalance`, as far as the embedded code reads it. -/
structure RequestAccessBalance where
  ID : ObjectID
  BalanceID : ObjectID
  BalanceRequester : ActorObject
  BalanceOwner : ActorObject
  Access : String
  Status : RequestStatus
  deriving DecidableEq, Repr

/-- The zero value `domain.RequestAccessBalance{}`. -/
def RequestAccessBalance.zero : RequestAccessBalance :=
  { ID := ⟨""⟩, BalanceID := ⟨""⟩, BalanceRequester := ⟨⟨""⟩, ""⟩,
    BalanceOwner := ⟨⟨""⟩, ""⟩, Access := "", Status := RequestStatus.other "" }

/-- The documents that the access-sharing workflow reads and writes: the actors
(users and corporates) with their balance-access lists, the access requests and
the balances. -/
structure AccessWorld where
  actors : List ActorAble
  requests : List RequestAccessBalance
  balances : List Balance
  deriving DecidableEq, Repr

/-- What the access-sharing workflow takes from outside the embedded files: the
string constants of the access levels, the PIN check (a function of the actor,
named by its actor ID, and the PIN), the owner check, and for every storage call
whether it fails on its own account and with which error. -/
structure AccessEnv where
  ACCESS_BALANCE_SHARED : String
  ACCESS_BALANCE_VIEW_ONLY : String
  ValidateActorPIN : ObjectID → String → Option GoError
  IsBalanceOwner : ActorAble → String → Bool
  RABByID : AccessWorld → String → Option GoError
  RABUpdateOne : AccessWorld → RequestAccessBalance → Option GoError
  BalanceByIDNoSession : AccessWorld → String → Option GoError
  ActorByID : AccessWorld → String → Option GoError
  ActorObjectToActor : AccessWorld → ActorObject → Option GoError
  ActorAddBalance : AccessWorld → ActorAble → AccessBalance → Option GoError
  ActorRemoveBalance : AccessWorld → ActorAble → String → Option GoError

/-- The first stored actor whose actor ID has the given hex rendering. -/
def findActor (actorID : String) : List ActorAble → Option ActorAble
  | [] => none
  | a :: rest => if a.ActorID.Hex = actorID then some a else findActor actorID rest

/-- Replace the first stored actor that has the actor ID of `actor`. -/
def replaceActor (actor : ActorAble) : List ActorAble → List ActorAble
  | [] => []
  | a :: rest =>
    if a.ActorID.Hex = actor.ActorID.Hex then actor :: rest
    else a :: replaceActor actor rest

/-- The first stored request whose ID has the given hex rendering. -/
def findRequest (requestID : String) : List RequestAccessBalance → Option RequestAccessBalance
  | [] => none
  | r :: rest => if r.ID.Hex = requestID then some r else findRequest requestID rest

/-- Replace the first stored request that has the ID of `request`. -/
def replaceRequest (request : RequestAccessBalance) :
    List RequestAccessBalance → List RequestAccessBalance
  | [] => []
  | r :: rest =>
    if r.ID.Hex = request.ID.Hex then request :: rest
    else r :: replaceRequest request rest

namespace service

/-- Modelled from the spec: `service.RABByID` is outside the embedded files. It
loads the access request by ID; a storage failure or a missing document is
reported as an error. -/
def RABByID (env : AccessEnv) (requestID : String) (w : AccessWorld) :
    Except GoError RequestAccessBalance :=
  match env.RABByID w requestID with
  | some e => Except.error e
  | none =>
    match findRequest requestID w.requests with
    | some r => Except.ok r
    | none => Except.error (GoError.other "mongo: no documents in result")

/-- Modelled from the spec: `service.RABUpdateOne` is outside the embedded
files. It persists the access request: the stored document with that ID is
replaced, unless the storage layer fails, in which case nothing is written. -/
def RABUpdateOne (env : AccessEnv) (request : RequestAccessBalance) (w : AccessWorld) :
    AccessWorld × Option GoError :=
  match env.RABUpdateOne w request with
  | some e => (w, some e)
  | none => ({ w with requests := replaceRequest request w.requests }, none)

/-- Modelled from the spec: `service.BalanceByIDNoSession` is outside the
embedded files. It loads the balance by ID outside any transaction; a storage
failure or a missing document is reported as an error. -/
def BalanceByIDNoSession (env : AccessEnv) (balanceID : String) (w : AccessWorld) :
    Except GoError Balance :=
  match env.BalanceByIDNoSession w balanceID with
  | some e => Except.error e
  | none =>
    match findBalance balanceID w.balances with
    | some b => Except.ok b
    | none => Except.error (utils.ErrorBadRequest ErrorCode.InvalidBalanceID "Balance not found")

end service

namespace usecase

/-- Modelled from the spec: `usecase.ActorByID` is outside the embedded files.
It loads the actor with the given ID; a storage failure or a missing actor is
reported as an error. -/
def ActorByID (env : AccessEnv) (actorID : String) (w : AccessWorld) : Except GoError ActorAble :=
  match env.ActorByID w actorID with
  | some e => Except.error e
  | none =>
    match findActor actorID w.actors with
    | some a => Except.ok a
    | none => Except.error (GoError.other "actor not found")

/-- Modelled from the spec: `usecase.ActorObjectToActor` is outside the embedded
files. It resolves the actor that an actor reference names; a storage failure or
a missing actor is reported as an error. -/
def ActorObjectToActor (env : AccessEnv) (object : ActorObject) (w : AccessWorld) :
    Except GoError ActorAble :=
  match env.ActorObjectToActor w object with
  | some e => Except.error e
  | none =>
    match findActor object.ID.Hex w.actors with
    | some a => Except.ok a
    | none => Except.error (GoError.other "actor not found")

/-- Modelled from the spec: `usecase.IsAccessBalanceAlreadyHave` is outside the
embedded files. The actor already holds any grant on the balance. -/
def IsAccessBalanceAlreadyHave (actor : ActorAble) (balanceID : String) : Bool :=
  actor.ListBalance.any (fun a => decide (a.BalanceID.Hex = balanceID))

/-- Modelled from the spec: `usecase.ActorAddBalance` is outside the embedded
files. It appends the AccessGrant to the actor and persists the actor, unless
the storage layer fails, in which case nothing is written. -/
def ActorAddBalance (env : AccessEnv) (actor : ActorAble) (access : AccessBalance)
    (w : AccessWorld) : AccessWorld × Option GoError :=
  match env.ActorAddBalance w actor access with
  | some e => (w, some e)
  | none =>
    ({ w with
       actors := replaceActor { actor with ListBalance := actor.ListBalance ++ [access] }
         w.actors }, none)

/-- Modelled from the spec: `usecase.ActorRemoveBalance` is outside the embedded
files. The symmetric removal: the grants of the actor on the balance are removed
and the actor is persisted, unless the storage layer fails. -/
def ActorRemoveBalance (env : AccessEnv) (actor : ActorAble) (balanceID : String)
    (w : AccessWorld) : AccessWorld × Option GoError :=
  match env.ActorRemoveBalance w actor balanceID with
  | some e => (w, some e)
  | none =>
    ({ w with
       actors := replaceActor
         { actor with
           ListBalance := actor.ListBalance.filter
             (fun a => decide (a.BalanceID.Hex ≠ balanceID)) }
         w.actors }, none)

/-- Go: `usecase.ShareBalance` (balance.go). -/
def ShareBalance (env : AccessEnv) (corporate : Corporate) (balanceID access actorID pin : String)
    (w : AccessWorld) : AccessWorld × Option GoError :=
  match env.ValidateActorPIN corporate.ID pin with
  | some err => (w, some err)
  | none =>
    match service.BalanceByIDNoSession env balanceID w with
    | Except.error _ =>
      (w, some (utils.ErrorBadRequest ErrorCode.InvalidBalanceID "Balance not found"))
    | Except.ok balance =>
      if balance.OwnerType = "" then
        (w, some (utils.ErrorBadRequest ErrorCode.InvalidBalanceID "Balance not found"))
      else
        match ActorByID env actorID w with
        | Except.error err => (w, some err)
        | Except.ok actor =>
          if access ≠ env.ACCESS_BALANCE_SHARED ∧ access ≠ env.ACCESS_BALANCE_VIEW_ONLY then
            (w, some (utils.ErrorBadRequest ErrorCode.InvalidAccessType
              "Invalid request access type"))
          else if balance.CorporateID ≠ corporate.ID then
            (w, some (utils.ErrorBadRequest ErrorCode.InvalidAccessType "Invalid balance scope"))
          else if IsAccessBalanceAlreadyHave actor balanceID then
            (w, some (utils.ErrorBadRequest ErrorCode.AccessBalanceAlreadyHave
              "Access balance already have"))
          else
            ActorAddBalance env actor { BalanceID := balance.ID, Access := access } w

/-- Go: `usecase.RevokeBalance` (balance.go). -/
def RevokeBalance (env : AccessEnv) (corporate : Corporate) (balanceID revokeFrom pin : String)
    (w : AccessWorld) : AccessWorld × Option GoError :=
  match env.ValidateActorPIN corporate.ID pin with
  | some err => (w, some err)
  | none =>
    match service.BalanceByIDNoSession env balanceID w with
    | Except.error _ =>
      (w, some (utils.ErrorBadRequest ErrorCode.InvalidBalanceID "Balance not found"))
    | Except.ok balance =>
      if balance.OwnerType = "" then
        (w, some (utils.ErrorBadRequest ErrorCode.InvalidBalanceID "Balance not found"))
      else
        match ActorByID env revokeFrom w with
        | Except.error err => (w, some err)
        | Except.ok actor =>
          if balance.CorporateID ≠ corporate.ID then
            (w, some (utils.ErrorBadRequest ErrorCode.InvalidAccessType "Invalid balance scope"))
          else
            ActorRemoveBalance env actor balanceID w

/-- Go: `usecase.ProccedRAB` (balance.go). The result is the world it leaves and
its two return values. -/
def ProccedRAB (env : AccessEnv) (requestID : String) (status : RequestStatus)
    (owner : ActorAble) (pin : String) (w : AccessWorld) :
    AccessWorld × RequestAccessBalance × Option GoError :=
  match service.RABByID env requestID w with
  | Except.error _ =>
    (w, RequestAccessBalance.zero,
      some (utils.ErrorBadRequest ErrorCode.RequestAccessBalanceNotFound "Balance not found"))
  | Except.ok request =>
    match ActorObjectToActor env request.BalanceRequester w with
    | Except.error err => (w, RequestAccessBalance.zero, some err)
    | Except.ok requester =>
      let balanceID := request.BalanceID.Hex
      if request.Status ≠ RequestStatus.REQUEST_ACCESS_BALANCE_STATUS_PENDING then
        (w, RequestAccessBalance.zero,
          some (utils.ErrorBadRequest ErrorCode.RequestAccessBalanceAlreadyProcced
            "Request already procced"))
      else if IsAccessBalanceAlreadyHave requester balanceID then
        (w, RequestAccessBalance.zero,
          some (utils.ErrorBadRequest ErrorCode.AccessBalanceAlreadyHave
            "Access balance already have"))
      else if ¬ env.IsBalanceOwner owner balanceID then
        (w, RequestAccessBalance.zero,
          some (utils.ErrorBadRequest ErrorCode.InvalidBalanceOwner "Invalid balance access"))
      else
        match env.ValidateActorPIN owner.ActorID pin with
        | some err => (w, RequestAccessBalance.zero, some err)
        | none =>
          let request := { request with Status := status }
          if status = RequestStatus.REQUEST_ACCESS_BALANCE_STATUS_APPROVE then
            match ActorAddBalance env requester
                { BalanceID := request.BalanceID, Access := request.Access } w with
            | (w, some err) => (w, RequestAccessBalance.zero, some err)
            | (w, none) =>
              match service.RABUpdateOne env request w with
              | (w, some err) => (w, RequestAccessBalance.zero, some err)
              | (w, none) => (w, request, none)
          else
            match service.RABUpdateOne env request w with
            | (w, some err) => (w, RequestAccessBalance.zero, some err)
            | (w, none) => (w, request, none)

end usecase

/-- One call of the access-sharing workflow. -/
inductive AccessCall
  | ShareBalance (corporate : Corporate) (balanceID access actorID pin : String)
  | RevokeBalance (corporate : Corporate) (balanceID revokeFrom pin : String)
  | ProccedRAB (requestID : String) (status : RequestStatus) (owner : ActorAble) (pin : String)

/-- The world that one call of the workflow leaves, whether it succeeds or
fails. -/
def runCall (env : AccessEnv) : AccessCall → AccessWorld → AccessWorld
  | AccessCall.ShareBalance corporate balanceID access actorID pin, w =>
    (usecase.ShareBalance env corporate balanceID access actorID pin w).1
  | AccessCall.RevokeBalance corporate balanceID revokeFrom pin, w =>
    (usecase.RevokeBalance env corporate balanceID revokeFrom pin w).1
  | AccessCall.ProccedRAB requestID status owner pin, w =>
    (usecase.ProccedRAB env requestID status owner pin w).1

/-- The world that a sequence of calls leaves, made one after the other. -/
def runCalls (env : AccessEnv) : List AccessCall → AccessWorld → AccessWorld
  | [], w => w
  | call :: rest, w => runCalls env rest (runCall env call w)

/-- The balance-access list holds at most one entry per balance ID. -/
abbrev GrantsUnique (actor : ActorAble) : Prop :=
  (actor.ListBalance.map (fun a => a.BalanceID.Hex)).Nodup

/-- The storage layer never fails on its own account: every read and write of
balances and statements goes through. -/
def StorageNeverFails (F : Faults) : Prop :=
  (∀ st balanceID, F.BalanceByID st balanceID = none)
  ∧ (∀ st b, F.BalanceUpdate st b = none)
  ∧ (∀ st s, F.StatementSaveOne st s = none)

/-! ## Sample data -/

/-- A balance document with ID `a` holding `amount`. -/
def sampleBalance (a : String) (amount : Int) : Balance :=
  { ID := ⟨a⟩, CorporateID := ⟨"corp"⟩, OwnerType := "user", Amount := amount }

/-- A store with the single balance `a` holding `amount` and an empty ledger. -/
def sampleStore (a : String) (amount : Int) : Store :=
  { balances := [sampleBalance a amount], statements := [], transactions := [] }

/-- A withdraw statement of `w` against balance `a`. -/
def withdrawOf (a : String) (w : Int) : Statement :=
  { BalanceID := ⟨a⟩, Deposit := 0, Withdraw := w, Balance := 0, Reference := "ref" }

/-- A deposit statement of `d` against balance `a`. -/
def depositOf (a : String) (d : Int) : Statement :=
  { BalanceID := ⟨a⟩, Deposit := d, Withdraw := 0, Balance := 0, Reference := "ref" }

/-- A corporate with its two callback addresses. -/
def sampleCorporate : Corporate :=
  { ID := ⟨"corp"⟩, BulkInquiryCallbackURL := "inquiry-url", BulkTransferCallbackURL := "transfer-url" }

/-- An actor with owner access to balance `a`. -/
def sampleUser : ActorAble :=
  { ActorID := ⟨"user"⟩, ListBalance := [{ BalanceID := ⟨"a"⟩, Access := "OWNER" }] }

/-- Collaborators for the examples. A transfer with external ID `crash` fails
with an error that is not a `utils.CustomError`, one with external ID `poor`
fails with the InsufficientBalance domain error, any other succeeds with the
transaction code `TRX-` followed by its external ID. An inquiry on bank
`nowhere` fails with an error whose text is empty, any other answers the account
name `holder`. The job store holds job `j1` (unexecuted) and job `j2`
(completed). -/
def sampleEnv : BulkEnv Unit where
  Execute := fun _ call =>
    if call.externalID = "crash" then
      ((), { TransactionCode := "", Amount := 0 }, some (GoError.other "connection reset"))
    else if call.externalID = "poor" then
      ((), { TransactionCode := "", Amount := 0 },
        some (utils.ErrorBadRequest ErrorCode.InsufficientBalance "Insufficient balance"))
    else ((), { TransactionCode := "TRX-" ++ call.externalID, Amount := call.amount }, none)
  InquiryBankAccount := fun _ accountNumber bankName =>
    if bankName = "nowhere" then
      ((), { BankName := "", AccountNumber := "", Name := "" }, some (GoError.other ""))
    else ((), { BankName := bankName, AccountNumber := accountNumber, Name := "holder" }, none)
  ResponseDescription := fun code =>
    match code with
    | ErrorCode.InsufficientBalance => "Insufficient balance"
    | _ => "Bad request"
  CustomErrorText := fun _ _ message => message
  BulkTransferByID := fun bulkID =>
    if bulkID = "j1" then
      ({ ID := ⟨"j1"⟩, BalanceID := ⟨"a"⟩, Owner := ⟨⟨"user"⟩, "user"⟩, Time := "t0",
         Status := BulkStatus.BULK_UNEXECUTED_STATUS, FailedNumber := [], List := [] }, none)
    else if bulkID = "j2" then
      ({ ID := ⟨"j2"⟩, BalanceID := ⟨"a"⟩, Owner := ⟨⟨"user"⟩, "user"⟩, Time := "t0",
         Status := BulkStatus.BULK_COMPLETED_STATUS, FailedNumber := [], List := [] }, none)
    else (BulkTransfer.zero, none)
  ValidateActorPIN := fun _ pin =>
    if pin = "1234" then none else some (GoError.other "wrong pin")
  ValidateAccessBalance := fun _ _ => none
  ValidateIsVerify := fun _ => none

/-- A fresh transfer item: no transaction code, no reason. -/
def sampleItem (number : Int) (externalID : String) : Transfer :=
  { Number := number,
    ToBankAccount := { BankName := "bank", AccountNumber := "123", Name := "payee" },
    Amount := 10, ExternalID := externalID, TransactionCode := "", Reason := "" }

/-- A fresh bulk transfer job on balance `a` with the given items. -/
def sampleJob (items : List Transfer) : BulkTransfer :=
  { ID := ⟨"j1"⟩, BalanceID := ⟨"a"⟩, Owner := ⟨⟨"user"⟩, "user"⟩, Time := "t0",
    Status := BulkStatus.BULK_UNEXECUTED_STATUS, FailedNumber := [], List := items }

/-- An inquiry item as submitted. -/
def sampleInquiry (number : Int) (bankName : String) : Inquiry :=
  { Number := number, AccountNumber := "123", BankName := bankName, AccountName := "typed",
    Valid := false, Reason := "" }

/-- Collaborators of the access-sharing workflow for the examples: the storage
layer never fails, the PIN of every actor is `1234`, and the owner of a balance
is the actor whose list holds an `OWNER` entry for it. -/
def sampleAccessEnv : AccessEnv where
  ACCESS_BALANCE_SHARED := "SHARED"
  ACCESS_BALANCE_VIEW_ONLY := "VIEW_ONLY"
  ValidateActorPIN := fun _ pin =>
    if pin = "1234" then none else some (GoError.other "wrong pin")
  IsBalanceOwner := fun actor balanceID =>
    actor.ListBalance.any
      (fun a => decide (a.BalanceID.Hex = balanceID) && decide (a.Access = "OWNER"))
  RABByID := fun _ _ => none
  RABUpdateOne := fun _ _ => none
  BalanceByIDNoSession := fun _ _ => none
  ActorByID := fun _ _ => none
  ActorObjectToActor := fun _ _ => none
  ActorAddBalance := fun _ _ _ => none
  ActorRemoveBalance := fun _ _ _ => none

/-- An actor that holds a VIEW_ONLY grant on balance `a`. -/
def sampleGuest : ActorAble :=
  { ActorID := ⟨"guest"⟩, ListBalance := [{ BalanceID := ⟨"a"⟩, Access := "VIEW_ONLY" }] }

/-- An actor that holds no grant. -/
def sampleNewcomer : ActorAble :=
  { ActorID := ⟨"newcomer"⟩, ListBalance := [] }

/-- An access request of the newcomer for SHARED access to balance `a`, owned by
`user`, with the given ID and status. -/
def sampleRequest (requestID : String) (status : RequestStatus) : RequestAccessBalance :=
  { ID := ⟨requestID⟩, BalanceID := ⟨"a"⟩, BalanceRequester := ⟨⟨"newcomer"⟩, "user"⟩,
    BalanceOwner := ⟨⟨"user"⟩, "user"⟩, Access := "SHARED", Status := status }

/-- A world with the owner `user`, the guest and the newcomer, the pending
request `r1`, the approved request `r2`, and balance `a` of corporate `corp`. -/
def sampleAccessWorld : AccessWorld :=
  { actors := [sampleUser, sampleGuest, sampleNewcomer],
    requests := [sampleRequest "r1" RequestStatus.REQUEST_ACCESS_BALANCE_STATUS_PENDING,
                 sampleRequest "r2" RequestStatus.REQUEST_ACCESS_BALANCE_STATUS_APPROVE],
    balances := [sampleBalance "a" 100] }

/-! ## Lookup and replacement in the balance collection -/

theorem findBalance_hex {balanceID : String} {l : List Balance} {b : Balance}
    (h : service.findBalance balanceID l = some b) : b.ID.Hex = balanceID := by
  induction l with
  | nil => simp [service.findBalance] at h
  | cons c rest ih =>
    unfold service.findBalance at h
    split at h
    · cases h; assumption
    · exact ih h

theorem findBalance_mem {balanceID : String} {l : List Balance} {b : Balance}
    (h : service.findBalance balanceID l = some b) : b ∈ l := by
  induction l with
  | nil => simp [service.findBalance] at h
  | cons c rest ih =>
    unfold service.findBalance at h
    split at h
    · cases h; exact List.mem_cons_self _ _
    · exact List.mem_cons_of_mem _ (ih h)

theorem findBalance_replace_same {balanceID : String} {l : List Balance} {b : Balance}
    (c : Balance) (h : service.findBalance balanceID l = some b) (hc : c.ID.Hex = balanceID) :
    service.findBalance balanceID (service.replaceBalance c l) = some c := by
  induction l with
  | nil => simp [service.findBalance] at h
  | cons d rest ih =>
    unfold service.findBalance at h
    unfold service.replaceBalance
    by_cases hd : d.ID.Hex = balanceID
    · simp [hd, hc, service.findBalance]
    · simp only [hd, if_false] at h
      have hne : ¬ d.ID.Hex = c.ID.Hex := by rw [hc]; exact hd
      simp [hne, service.findBalance, hd, ih h]

theorem findBalance_replace_other {balanceID : String} {l : List Balance} {c : Balance}
    (hc : c.ID.Hex ≠ balanceID) :
    service.findBalance balanceID (service.replaceBalance c l) = service.findBalance balanceID l := by
  induction l with
  | nil => simp [service.replaceBalance]
  | cons d rest ih =>
    unfold service.replaceBalance
    by_cases hd : d.ID.Hex = c.ID.Hex
    · have hne : ¬ d.ID.Hex = balanceID := by rw [hd]; exact hc
      simp [hd, service.findBalance, hc]
    · simp [hd, service.findBalance, ih]

/-! ## C1 – C3: one withdraw, one deposit -/

/-- C1. A withdraw of `w` from a stored balance holding `before >= w`, with the
store read and the two store writes succeeding, succeeds; the store it leaves
has the balance document replaced by one holding `before - w`, which is the
amount then stored under that ID, and the ledger grown by exactly one statement:
the input statement with its resulting-balance field set to `before - w`. -/
theorem WithdrawBalance_sufficient (F : Faults) (statement : Statement) (session : Store)
    (balance : Balance)
    (hstored : service.findBalance statement.BalanceID.Hex session.balances = some balance)
    (hread : F.BalanceByID session statement.BalanceID.Hex = none)
    (hle : statement.Withdraw ≤ balance.Amount)
    (hupdate : F.BalanceUpdate session
        { balance with Amount := balance.Amount - statement.Withdraw } = none)
    (hsave : F.StatementSaveOne
        { session with
          balances := service.replaceBalance
            { balance with Amount := balance.Amount - statement.Withdraw } session.balances }
        { statement with Balance := balance.Amount - statement.Withdraw } = none) :
    usecase.WithdrawBalance F statement session =
      ({ balances := service.replaceBalance
            { balance with Amount := balance.Amount - statement.Withdraw } session.balances,
         statements := session.statements ++
            [{ statement with Balance := balance.Amount - statement.Withdraw }],
         transactions := session.transactions }, none)
    ∧ usecase.storedAmount (usecase.WithdrawBalance F statement session).1 statement.BalanceID.Hex
        = some (balance.Amount - statement.Withdraw) := by
  have hrun : usecase.WithdrawBalance F statement session =
      ({ balances := service.replaceBalance
            { balance with Amount := balance.Amount - statement.Withdraw } session.balances,
         statements := session.statements ++
            [{ statement with Balance := balance.Amount - statement.Withdraw }],
         transactions := session.transactions }, none) := by
    simp [usecase.WithdrawBalance, service.BalanceByID, hread, hstored, not_lt.mpr hle,
      service.BalanceUpdate, hupdate, service.StatementSaveOne, hsave]
  refine ⟨hrun, ?_⟩
  have hfind : service.findBalance statement.BalanceID.Hex
      (service.replaceBalance { balance with Amount := balance.Amount - statement.Withdraw }
        session.balances)
      = some { balance with Amount := balance.Amount - statement.Withdraw } :=
    findBalance_replace_same _ hstored
      (show balance.ID.Hex = statement.BalanceID.Hex from findBalance_hex hstored)
  rw [hrun]
  simp [usecase.storedAmount, hfind]

/-- C1, the scenario of the spec: 1000 in the balance, withdraw 300. -/
theorem WithdrawBalance_sufficient_witness :
    usecase.WithdrawBalance Faults.none (withdrawOf "a" 300) (sampleStore "a" 1000) =
      ({ balances := [sampleBalance "a" 700],
         statements := [{ withdrawOf "a" 300 with Balance := 700 }],
         transactions := [] }, none)
    ∧ usecase.storedAmount
        (usecase.WithdrawBalance Faults.none (withdrawOf "a" 300) (sampleStore "a" 1000)).1 "a"
        = some 700 :=
  WithdrawBalance_sufficient Faults.none (withdrawOf "a" 300) (sampleStore "a" 1000)
    (sampleBalance "a" 1000) rfl rfl (by decide) rfl rfl

/-- C2. A withdraw of more than a stored balance holds, once the balance has
been read, fails with the InsufficientBalance error and returns the store
exactly as it was: same balance amounts, no statement added. -/
theorem WithdrawBalance_insufficient (F : Faults) (statement : Statement) (session : Store)
    (balance : Balance)
    (hstored : service.findBalance statement.BalanceID.Hex session.balances = some balance)
    (hread : F.BalanceByID session statement.BalanceID.Hex = none)
    (hgt : statement.Withdraw > balance.Amount) :
    usecase.WithdrawBalance F statement session =
      (session, some (utils.ErrorBadRequest ErrorCode.InsufficientBalance "Insufficient balance"))
    ∧ usecase.storedAmount (usecase.WithdrawBalance F statement session).1 statement.BalanceID.Hex
        = some balance.Amount
    ∧ (usecase.WithdrawBalance F statement session).1.statements = session.statements := by
  have hrun : usecase.WithdrawBalance F statement session =
      (session, some (utils.ErrorBadRequest ErrorCode.InsufficientBalance "Insufficient balance")) := by
    simp [usecase.WithdrawBalance, service.BalanceByID, hread, hstored, hgt]
  refine ⟨hrun, ?_, ?_⟩
  · rw [hrun]; simp [usecase.storedAmount, hstored]
  · rw [hrun]

/-- C2, the scenario of the spec: 1000 in the balance, withdraw 1500. -/
theorem WithdrawBalance_insufficient_witness :
    usecase.WithdrawBalance Faults.none (withdrawOf "a" 1500) (sampleStore "a" 1000) =
      (sampleStore "a" 1000,
        some (utils.ErrorBadRequest ErrorCode.InsufficientBalance "Insufficient balance"))
    ∧ usecase.storedAmount
        (usecase.WithdrawBalance Faults.none (withdrawOf "a" 1500) (sampleStore "a" 1000)).1 "a"
        = some 1000
    ∧ (usecase.WithdrawBalance Faults.none (withdrawOf "a" 1500) (sampleStore "a" 1000)).1.statements
        = [] :=
  WithdrawBalance_insufficient Faults.none (withdrawOf "a" 1500) (sampleStore "a" 1000)
    (sampleBalance "a" 1000) rfl rfl (by decide)

/-- C3. A deposit of `d` to a stored balance holding `before`, with the store
read and the two store writes succeeding, succeeds; the store it leaves has the
balance document replaced by one holding `before + d`, which is the amount then
stored under that ID, and the ledger grown by exactly one statement: the input
statement with its resulting-balance field set to `before + d`. -/
theorem DepositBalance_applies (F : Faults) (statement : Statement) (session : Store)
    (balance : Balance)
    (hstored : service.findBalance statement.BalanceID.Hex session.balances = some balance)
    (hread : F.BalanceByID session statement.BalanceID.Hex = none)
    (hupdate : F.BalanceUpdate session
        { balance with Amount := balance.Amount + statement.Deposit } = none)
    (hsave : F.StatementSaveOne
        { session with
          balances := service.replaceBalance
            { balance with Amount := balance.Amount + statement.Deposit } session.balances }
        { statement with Balance := balance.Amount + statement.Deposit } = none) :
    usecase.DepositBalance F statement session =
      ({ balances := service.replaceBalance
            { balance with Amount := balance.Amount + statement.Deposit } session.balances,
         statements := session.statements ++
            [{ statement with Balance := balance.Amount + statement.Deposit }],
         transactions := session.transactions }, none)
    ∧ usecase.storedAmount (usecase.DepositBalance F statement session).1 statement.BalanceID.Hex
        = some (balance.Amount + statement.Deposit) := by
  have hrun : usecase.DepositBalance F statement session =
      ({ balances := service.replaceBalance
            { balance with Amount := balance.Amount + statement.Deposit } session.balances,
         statements := session.statements ++
            [{ statement with Balance := balance.Amount + statement.Deposit }],
         transactions := session.transactions }, none) := by
    simp [usecase.DepositBalance, service.BalanceByID, hread, hstored,
      service.BalanceUpdate, hupdate, service.StatementSaveOne, hsave]
  refine ⟨hrun, ?_⟩
  have hfind : service.findBalance statement.BalanceID.Hex
      (service.replaceBalance { balance with Amount := balance.Amount + statement.Deposit }
        session.balances)
      = some { balance with Amount := balance.Amount + statement.Deposit } :=
    findBalance_replace_same _ hstored
      (show balance.ID.Hex = statement.BalanceID.Hex from findBalance_hex hstored)
  rw [hrun]
  simp [usecase.storedAmount, hfind]

/-- C3 on a concrete store: 1000 in the balance, deposit 250. -/
theorem DepositBalance_applies_witness :
    usecase.DepositBalance Faults.none (depositOf "a" 250) (sampleStore "a" 1000) =
      ({ balances := [sampleBalance "a" 1250],
         statements := [{ depositOf "a" 250 with Balance := 1250 }],
         transactions := [] }, none)
    ∧ usecase.storedAmount
        (usecase.DepositBalance Faults.none (depositOf "a" 250) (sampleStore "a" 1000)).1 "a"
        = some 1250 :=
  DepositBalance_applies Faults.none (depositOf "a" 250) (sampleStore "a" 1000)
    (sampleBalance "a" 1000) rfl rfl rfl rfl

/-! ## What a successful deposit or withdraw leaves behind -/

theorem DepositBalance_ok {F : Faults} {statement : Statement} {session result : Store}
    (h : usecase.DepositBalance F statement session = (result, none)) :
    ∃ b, service.findBalance statement.BalanceID.Hex session.balances = some b
      ∧ result.balances = service.replaceBalance
          { b with Amount := b.Amount + statement.Deposit } session.balances := by
  simp only [usecase.DepositBalance, service.BalanceByID, service.BalanceUpdate,
    service.StatementSaveOne] at h
  cases h1 : F.BalanceByID session statement.BalanceID.Hex with
  | some e => simp [h1] at h
  | none =>
    cases h2 : service.findBalance statement.BalanceID.Hex session.balances with
    | none => simp [h1, h2] at h
    | some b =>
      refine ⟨b, rfl, ?_⟩
      simp only [h1, h2] at h
      cases h3 : F.BalanceUpdate session { b with Amount := b.Amount + statement.Deposit } with
      | some e => simp [h3] at h
      | none =>
        simp only [h3] at h
        cases h4 : F.StatementSaveOne
            { session with
              balances := service.replaceBalance
                { b with Amount := b.Amount + statement.Deposit } session.balances }
            { statement with Balance := b.Amount + statement.Deposit } with
        | some e => simp [h4] at h
        | none =>
          simp only [h4, Prod.mk.injEq, and_true] at h
          rw [← h]

theorem WithdrawBalance_ok {F : Faults} {statement : Statement} {session result : Store}
    (h : usecase.WithdrawBalance F statement session = (result, none)) :
    ∃ b, service.findBalance statement.BalanceID.Hex session.balances = some b
      ∧ statement.Withdraw ≤ b.Amount
      ∧ result.balances = service.replaceBalance
          { b with Amount := b.Amount - statement.Withdraw } session.balances := by
  simp only [usecase.WithdrawBalance, service.BalanceByID, service.BalanceUpdate,
    service.StatementSaveOne] at h
  cases h1 : F.BalanceByID session statement.BalanceID.Hex with
  | some e => simp [h1] at h
  | none =>
    cases h2 : service.findBalance statement.BalanceID.Hex session.balances with
    | none => simp [h1, h2] at h
    | some b =>
      simp only [h1, h2] at h
      by_cases hlt : b.Amount < statement.Withdraw
      · simp [hlt] at h
      · refine ⟨b, rfl, not_lt.mp hlt, ?_⟩
        simp only [hlt, if_false] at h
        cases h3 : F.BalanceUpdate session { b with Amount := b.Amount - statement.Withdraw } with
        | some e => simp [h3] at h
        | none =>
          simp only [h3] at h
          cases h4 : F.StatementSaveOne
              { session with
                balances := service.replaceBalance
                  { b with Amount := b.Amount - statement.Withdraw } session.balances }
              { statement with Balance := b.Amount - statement.Withdraw } with
          | some e => simp [h4] at h
          | none =>
            simp only [h4, Prod.mk.injEq, and_true] at h
            rw [← h]

theorem mem_replaceBalance {c x : Balance} {l : List Balance}
    (h : x ∈ service.replaceBalance c l) : x = c ∨ x ∈ l := by
  induction l with
  | nil => simp [service.replaceBalance] at h
  | cons d rest ih =>
    unfold service.replaceBalance at h
    split at h
    · rcases List.mem_cons.mp h with h | h
      · exact Or.inl h
      · exact Or.inr (List.mem_cons_of_mem _ h)
    · rcases List.mem_cons.mp h with h | h
      · exact Or.inr (h ▸ List.mem_cons_self _ _)
      · rcases ih h with h | h
        · exact Or.inl h
        · exact Or.inr (List.mem_cons_of_mem _ h)

/-! ## C4: the non-negative balance invariant -/

theorem replaceBalance_nonneg {c : Balance} {l : List Balance}
    (hl : ∀ b ∈ l, 0 ≤ b.Amount) (hc : 0 ≤ c.Amount) :
    ∀ b ∈ service.replaceBalance c l, 0 ≤ b.Amount := by
  intro b hb
  rcases mem_replaceBalance hb with h | h
  · rw [h]; exact hc
  · exact hl b h

/-- C4 as stated fails: a statement whose Deposit is negative is applied by
`DepositBalance` without any check, so a batch that returns no error can leave a
negative amount. Balance 100, one statement with Deposit -500: no error, amount
-400. -/
theorem adjustBalance_negative_deposit :
    (∀ b ∈ (sampleStore "a" 100).balances, 0 ≤ b.Amount)
    ∧ transaction.adjustBalanceWithStatement Faults.none [depositOf "a" (-500)]
        (sampleStore "a" 100)
      = ({ balances := [sampleBalance "a" (-400)],
           statements := [{ depositOf "a" (-500) with Balance := -400 }],
           transactions := [] }, none)
    ∧ ¬ (∀ b ∈ (transaction.adjustBalanceWithStatement Faults.none [depositOf "a" (-500)]
          (sampleStore "a" 100)).1.balances, 0 ≤ b.Amount) := by
  decide

/-- C4, amended. From a store in which every balance has `Amount >= 0`, a batch
of statements none of which has a negative Deposit, applied by
`adjustBalanceWithStatement` and returning without error, leaves a store in
which every balance has `Amount >= 0`. -/
theorem adjustBalance_nonneg (F : Faults) (statements : List Statement) (session : Store)
    (hinv : ∀ b ∈ session.balances, 0 ≤ b.Amount)
    (hdep : ∀ s ∈ statements, 0 ≤ s.Deposit)
    (hok : (transaction.adjustBalanceWithStatement F statements session).2 = none) :
    ∀ b ∈ (transaction.adjustBalanceWithStatement F statements session).1.balances,
      0 ≤ b.Amount := by
  induction statements generalizing session with
  | nil => simpa [transaction.adjustBalanceWithStatement] using hinv
  | cons s rest ih =>
    have hrest : ∀ t ∈ rest, 0 ≤ t.Deposit := fun t ht => hdep t (List.mem_cons_of_mem _ ht)
    have hs : 0 ≤ s.Deposit := hdep s (List.mem_cons_self _ _)
    unfold transaction.adjustBalanceWithStatement at hok ⊢
    by_cases hd : s.Deposit ≠ 0
    · rw [if_pos hd] at hok ⊢
      cases hrun : usecase.DepositBalance F s session with
      | mk next err =>
        cases err with
        | some e => simp [hrun] at hok
        | none =>
          simp only [hrun] at hok ⊢
          obtain ⟨b, hb, hbal⟩ := DepositBalance_ok hrun
          refine ih next ?_ hrest hok
          rw [hbal]
          exact replaceBalance_nonneg hinv
            (by have := hinv b (findBalance_mem hb); simp only; omega)
    · rw [if_neg hd] at hok ⊢
      by_cases hw : s.Withdraw ≠ 0
      · rw [if_pos hw] at hok ⊢
        cases hrun : usecase.WithdrawBalance F s session with
        | mk next err =>
          cases err with
          | some e => simp [hrun] at hok
          | none =>
            simp only [hrun] at hok ⊢
            obtain ⟨b, _, hle, hbal⟩ := WithdrawBalance_ok hrun
            refine ih next ?_ hrest hok
            rw [hbal]
            exact replaceBalance_nonneg hinv (by simp only; omega)
      · rw [if_neg hw] at hok ⊢
        exact ih session hinv hrest hok

/-- C4, amended, on a concrete batch: 100 in the balance, deposit 50 then
withdraw 120. -/
theorem adjustBalance_nonneg_witness :
    (transaction.adjustBalanceWithStatement Faults.none
        [depositOf "a" 50, withdrawOf "a" 120] (sampleStore "a" 100)).1.balances
      = [sampleBalance "a" 30]
    ∧ 0 ≤ (sampleBalance "a" 30).Amount :=
  ⟨by decide,
   adjustBalance_nonneg Faults.none [depositOf "a" 50, withdrawOf "a" 120] (sampleStore "a" 100)
    (by decide) (by decide) (by decide) (sampleBalance "a" 30) (by decide)⟩

/-! ## C5: the first failing statement aborts the whole batch -/

theorem adjustBalance_cons (F : Faults) (s : Statement) (rest : List Statement)
    (session : Store) :
    transaction.adjustBalanceWithStatement F (s :: rest) session =
      if s.Deposit ≠ 0 then
        match usecase.DepositBalance F s session with
        | (session, some err) => (session, some err)
        | (session, none) => transaction.adjustBalanceWithStatement F rest session
      else if s.Withdraw ≠ 0 then
        match usecase.WithdrawBalance F s session with
        | (session, some err) => (session, some err)
        | (session, none) => transaction.adjustBalanceWithStatement F rest session
      else transaction.adjustBalanceWithStatement F rest session := by
  rw [transaction.adjustBalanceWithStatement]

theorem adjustBalance_append (F : Faults) (pre more : List Statement) (session mid : Store)
    (hpre : transaction.adjustBalanceWithStatement F pre session = (mid, none)) :
    transaction.adjustBalanceWithStatement F (pre ++ more) session
      = transaction.adjustBalanceWithStatement F more mid := by
  induction pre generalizing session with
  | nil =>
    simp only [transaction.adjustBalanceWithStatement, Prod.mk.injEq, and_true] at hpre
    simp [hpre]
  | cons s rest ih =>
    rw [List.cons_append, adjustBalance_cons]
    rw [adjustBalance_cons] at hpre
    by_cases hd : s.Deposit ≠ 0
    · rw [if_pos hd] at hpre ⊢
      cases hrun : usecase.DepositBalance F s session with
      | mk next err =>
        cases err with
        | some e => simp [hrun] at hpre
        | none =>
          simp only [hrun] at hpre ⊢
          exact ih next hpre
    · rw [if_neg hd] at hpre ⊢
      by_cases hw : s.Withdraw ≠ 0
      · rw [if_pos hw] at hpre ⊢
        cases hrun : usecase.WithdrawBalance F s session with
        | mk next err =>
          cases err with
          | some e => simp [hrun] at hpre
          | none =>
            simp only [hrun] at hpre ⊢
            exact ih next hpre
      · rw [if_neg hw] at hpre ⊢
        exact ih session hpre

theorem adjustBalance_head_fails (F : Faults) (s : Statement) (post : List Statement)
    (mid result : Store) (e : GoError)
    (hfail : transaction.adjustBalanceWithStatement F [s] mid = (result, some e)) :
    transaction.adjustBalanceWithStatement F (s :: post) mid = (result, some e) := by
  unfold transaction.adjustBalanceWithStatement at hfail ⊢
  by_cases hd : s.Deposit ≠ 0
  · rw [if_pos hd] at hfail ⊢
    cases hrun : usecase.DepositBalance F s mid with
    | mk next err =>
      cases err with
      | some e1 => simpa [hrun] using hfail
      | none => simp [hrun, transaction.adjustBalanceWithStatement] at hfail
  · rw [if_neg hd] at hfail ⊢
    by_cases hw : s.Withdraw ≠ 0
    · rw [if_pos hw] at hfail ⊢
      cases hrun : usecase.WithdrawBalance F s mid with
      | mk next err =>
        cases err with
        | some e1 => simpa [hrun] using hfail
        | none => simp [hrun, transaction.adjustBalanceWithStatement] at hfail
    · rw [if_neg hw] at hfail
      simp [transaction.adjustBalanceWithStatement] at hfail

/-- C5. When the statements before `s` apply without error and applying `s` to
the store they leave fails with `e`, `adjustBalanceWithStatement` on the whole
list returns `e` and the store left by the failed `s`, whatever follows `s` (no
later statement is applied). The unit of work of `Base.Commit`, on a session
whose transaction starts, then returns the same `e`; the session calls it makes
are the start and the abort only (no save of the Transaction record, no commit),
and the committed store is the one before the call. -/
theorem commit_first_failure (F : Faults) (pre : List Statement) (s : Statement)
    (post : List Statement) (trx : Transaction) (sess : Session) (mid result : Store)
    (e : GoError)
    (hstart : F.StartTransaction sess.committed = none)
    (hpre : transaction.adjustBalanceWithStatement F pre sess.committed = (mid, none))
    (hfail : transaction.adjustBalanceWithStatement F [s] mid = (result, some e)) :
    transaction.adjustBalanceWithStatement F (pre ++ s :: post) sess.committed
      = (result, some e)
    ∧ transaction.Commit.function F (pre ++ s :: post) trx sess
      = ({ committed := sess.committed, snapshot := sess.committed,
           log := sess.log ++ [TxEvent.StartTransaction, TxEvent.AbortTransaction] }, some e) := by
  have hrun : transaction.adjustBalanceWithStatement F (pre ++ s :: post) sess.committed
      = (result, some e) := by
    rw [adjustBalance_append F pre (s :: post) sess.committed mid hpre]
    exact adjustBalance_head_fails F s post mid result e hfail
  refine ⟨hrun, ?_⟩
  simp [transaction.Commit.function, session.StartTransaction, hstart, session.run, hrun,
    session.AbortTransaction]

/-- C5 on a concrete batch: 100 in the balance; deposit 50, then a withdraw of 500
that fails, then a deposit of 1000 that is never applied. -/
theorem commit_first_failure_witness :
    transaction.adjustBalanceWithStatement Faults.none
        ([depositOf "a" 50] ++ withdrawOf "a" 500 :: [depositOf "a" 1000])
        (sampleStore "a" 100)
      = ({ balances := [sampleBalance "a" 150],
           statements := [{ depositOf "a" 50 with Balance := 150 }],
           transactions := [] },
         some (utils.ErrorBadRequest ErrorCode.InsufficientBalance "Insufficient balance"))
    ∧ transaction.Commit.function Faults.none
        ([depositOf "a" 50] ++ withdrawOf "a" 500 :: [depositOf "a" 1000])
        { TransactionCode := "T1", Amount := 500 }
        { committed := sampleStore "a" 100, snapshot := sampleStore "a" 100, log := [] }
      = ({ committed := sampleStore "a" 100, snapshot := sampleStore "a" 100,
           log := [] ++ [TxEvent.StartTransaction, TxEvent.AbortTransaction] },
         some (utils.ErrorBadRequest ErrorCode.InsufficientBalance "Insufficient balance")) :=
  commit_first_failure Faults.none [depositOf "a" 50] (withdrawOf "a" 500) [depositOf "a" 1000]
    { TransactionCode := "T1", Amount := 500 }
    { committed := sampleStore "a" 100, snapshot := sampleStore "a" 100, log := [] }
    { balances := [sampleBalance "a" 150],
      statements := [{ depositOf "a" 50 with Balance := 150 }],
      transactions := [] }
    { balances := [sampleBalance "a" 150],
      statements := [{ depositOf "a" 50 with Balance := 150 }],
      transactions := [] }
    (utils.ErrorBadRequest ErrorCode.InsufficientBalance "Insufficient balance")
    rfl (by decide) (by decide)

/-! ## C6: applying a batch and then its rollback -/

theorem replaceBalance_eq_bump {balanceID : String} {l : List Balance} {b : Balance}
    (delta : Int) (h : service.findBalance balanceID l = some b) :
    service.replaceBalance { b with Amount := b.Amount + delta } l = bump balanceID delta l := by
  induction l with
  | nil => simp [service.findBalance] at h
  | cons c rest ih =>
    unfold service.findBalance at h
    unfold service.replaceBalance bump
    by_cases hc : c.ID.Hex = balanceID
    · simp only [hc, if_true, Option.some.injEq] at h
      subst h
      simp [hc]
    · simp only [hc, if_false] at h
      have hb : b.ID.Hex = balanceID := findBalance_hex h
      have hne : ¬ c.ID.Hex = b.ID.Hex := by rw [hb]; exact hc
      simp [hc, hne, ih h]

theorem bump_zero (balanceID : String) (l : List Balance) : bump balanceID 0 l = l := by
  induction l with
  | nil => rfl
  | cons c rest ih =>
    unfold bump
    by_cases hc : c.ID.Hex = balanceID
    · simp [hc]
    · simp [hc, ih]

theorem bump_add (balanceID : String) (d e : Int) (l : List Balance) :
    bump balanceID e (bump balanceID d l) = bump balanceID (d + e) l := by
  induction l with
  | nil => rfl
  | cons c rest ih =>
    by_cases hc : c.ID.Hex = balanceID
    · simp [bump, hc, add_assoc]
    · simp [bump, hc, ih]

theorem bump_comm (i j : String) (d e : Int) (l : List Balance) :
    bump i d (bump j e l) = bump j e (bump i d l) := by
  induction l with
  | nil => rfl
  | cons c rest ih =>
    by_cases hi : c.ID.Hex = i
    · subst hi
      by_cases hj : c.ID.Hex = j
      · subst hj
        simp [bump, add_right_comm]
      · simp [bump, hj]
    · by_cases hj : c.ID.Hex = j
      · subst hj
        simp [bump, hi]
      · simp [bump, hi, hj, ih]

theorem bump_applyEffects (i : String) (d : Int) (S : List Statement) (l : List Balance) :
    bump i d (applyEffects S l) = applyEffects S (bump i d l) := by
  induction S generalizing l with
  | nil => rfl
  | cons s rest ih =>
    simp only [applyEffects]
    rw [ih, bump_comm]

theorem effect_swap (s : Statement) (h : s.Deposit = 0 ∨ s.Withdraw = 0) :
    effect { s with Deposit := s.Withdraw, Withdraw := s.Deposit } = - effect s := by
  unfold effect
  rcases h with h | h
  · by_cases hw : s.Withdraw = 0
    · simp [h, hw]
    · simp [h, hw]
  · by_cases hd : s.Deposit = 0
    · simp [h, hd]
    · simp [h, hd]

theorem applyEffects_rollback (S : List Statement) (l : List Balance)
    (hexcl : ∀ s ∈ S, s.Deposit = 0 ∨ s.Withdraw = 0) :
    applyEffects (usecase.RollbackFeeStatement S) (applyEffects S l) = l := by
  induction S generalizing l with
  | nil => rfl
  | cons s rest ih =>
    have hs := hexcl s (List.mem_cons_self _ _)
    have hrest : ∀ t ∈ rest, t.Deposit = 0 ∨ t.Withdraw = 0 :=
      fun t ht => hexcl t (List.mem_cons_of_mem _ ht)
    have hstep := ih (bump s.BalanceID.Hex (effect s + - effect s) l) hrest
    simp only [usecase.RollbackFeeStatement, List.map_cons, applyEffects] at hstep ⊢
    rw [effect_swap s hs, bump_applyEffects, bump_add, hstep, add_neg_cancel, bump_zero]

theorem adjustBalance_ok_balances (F : Faults) (S : List Statement) (session result : Store)
    (h : transaction.adjustBalanceWithStatement F S session = (result, none)) :
    result.balances = applyEffects S session.balances := by
  induction S generalizing session with
  | nil =>
    simp only [transaction.adjustBalanceWithStatement, Prod.mk.injEq, and_true] at h
    simp [applyEffects, h]
  | cons s rest ih =>
    rw [adjustBalance_cons] at h
    simp only [applyEffects, effect]
    by_cases hd : s.Deposit ≠ 0
    · rw [if_pos hd] at h ⊢
      cases hrun : usecase.DepositBalance F s session with
      | mk next err =>
        cases err with
        | some e => simp [hrun] at h
        | none =>
          simp only [hrun] at h
          obtain ⟨b, hb, hbal⟩ := DepositBalance_ok hrun
          rw [ih next h, hbal, replaceBalance_eq_bump _ hb]
    · rw [if_neg hd] at h ⊢
      by_cases hw : s.Withdraw ≠ 0
      · rw [if_pos hw] at h ⊢
        cases hrun : usecase.WithdrawBalance F s session with
        | mk next err =>
          cases err with
          | some e => simp [hrun] at h
          | none =>
            simp only [hrun] at h
            obtain ⟨b, hb, _, hbal⟩ := WithdrawBalance_ok hrun
            rw [ih next h, hbal, sub_eq_add_neg, replaceBalance_eq_bump _ hb]
      · rw [if_neg hw] at h ⊢
        rw [ih session h, bump_zero]

theorem DepositBalance_found (F : Faults) (hF : StorageNeverFails F) (statement : Statement)
    (session : Store) (b : Balance)
    (hstored : service.findBalance statement.BalanceID.Hex session.balances = some b) :
    usecase.DepositBalance F statement session =
      ({ balances := service.replaceBalance
            { b with Amount := b.Amount + statement.Deposit } session.balances,
         statements := session.statements ++
            [{ statement with Balance := b.Amount + statement.Deposit }],
         transactions := session.transactions }, none) := by
  obtain ⟨h1, h2, h3⟩ := hF
  simp [usecase.DepositBalance, service.BalanceByID, h1, hstored, service.BalanceUpdate, h2,
    service.StatementSaveOne, h3]

theorem findBalance_bump_isSome (i j : String) (d : Int) (l : List Balance) :
    (service.findBalance i (bump j d l)).isSome = (service.findBalance i l).isSome := by
  induction l with
  | nil => rfl
  | cons c rest ih =>
    by_cases hj : c.ID.Hex = j
    · subst hj
      by_cases hi : c.ID.Hex = i
      · subst hi
        simp [bump, service.findBalance]
      · simp [bump, service.findBalance, hi]
    · by_cases hi : c.ID.Hex = i
      · subst hi
        simp [bump, hj, service.findBalance]
      · simp [bump, hj, service.findBalance, hi, ih]

theorem findBalance_applyEffects_isSome (i : String) (S : List Statement) (l : List Balance) :
    (service.findBalance i (applyEffects S l)).isSome = (service.findBalance i l).isSome := by
  induction S generalizing l with
  | nil => rfl
  | cons s rest ih =>
    simp only [applyEffects]
    rw [ih, findBalance_bump_isSome]

/-- Every statement that a successful batch applied as a withdraw names a balance
that is stored when the batch is over. -/
theorem adjustBalance_ok_stored (F : Faults) (S : List Statement) (session result : Store)
    (h : transaction.adjustBalanceWithStatement F S session = (result, none))
    (hw : ∀ s ∈ S, s.Deposit = 0) :
    ∀ s ∈ S, s.Withdraw ≠ 0 → (service.findBalance s.BalanceID.Hex result.balances).isSome := by
  induction S generalizing session with
  | nil => intro s hs; cases hs
  | cons t rest ih =>
    have ht : t.Deposit = 0 := hw t (List.mem_cons_self _ _)
    have hrest : ∀ s ∈ rest, s.Deposit = 0 := fun s hs => hw s (List.mem_cons_of_mem _ hs)
    have hall := adjustBalance_ok_balances F (t :: rest) session result h
    rw [adjustBalance_cons] at h
    rw [if_neg (by simp [ht])] at h
    intro s hs hne
    rcases List.mem_cons.mp hs with heq | hmem
    · subst heq
      rw [if_pos hne] at h
      cases hrun : usecase.WithdrawBalance F s session with
      | mk next err =>
        cases err with
        | some e => simp [hrun] at h
        | none =>
          obtain ⟨b, hb, _, _⟩ := WithdrawBalance_ok hrun
          rw [hall, findBalance_applyEffects_isSome, hb]
          rfl
    · by_cases hwt : t.Withdraw ≠ 0
      · rw [if_pos hwt] at h
        cases hrun : usecase.WithdrawBalance F t session with
        | mk next err =>
          cases err with
          | some e => simp [hrun] at h
          | none =>
            simp only [hrun] at h
            exact ih next h hrest s hmem hne
      · rw [if_neg hwt] at h
        exact ih session h hrest s hmem hne

/-- A batch of deposit statements on stored balances goes through when the
storage layer does not fail. -/
theorem adjustBalance_deposits_succeed (F : Faults) (hF : StorageNeverFails F)
    (R : List Statement) (session : Store)
    (hdep : ∀ s ∈ R, s.Withdraw = 0)
    (hstored : ∀ s ∈ R, s.Deposit ≠ 0 →
      (service.findBalance s.BalanceID.Hex session.balances).isSome) :
    (transaction.adjustBalanceWithStatement F R session).2 = none := by
  induction R generalizing session with
  | nil => rfl
  | cons t rest ih =>
    have hrest : ∀ s ∈ rest, s.Withdraw = 0 := fun s hs => hdep s (List.mem_cons_of_mem _ hs)
    rw [adjustBalance_cons]
    by_cases hd : t.Deposit ≠ 0
    · rw [if_pos hd]
      have hsome := hstored t (List.mem_cons_self _ _) hd
      obtain ⟨b, hb⟩ := Option.isSome_iff_exists.mp hsome
      rw [DepositBalance_found F hF t session b hb]
      refine ih _ hrest ?_
      intro s hs hne
      simp only
      rw [replaceBalance_eq_bump _ hb, findBalance_bump_isSome]
      exact hstored s (List.mem_cons_of_mem _ hs) hne
    · rw [if_neg hd, if_neg (by simp [hdep t (List.mem_cons_self _ _)])]
      exact ih session hrest (fun s hs hne => hstored s (List.mem_cons_of_mem _ hs) hne)

/-- C6 as stated fails: the rollback list need not apply. With an empty balance,
the batch "deposit 100, withdraw 100" succeeds and leaves the balance empty; its
rollback list starts with a withdraw of 100, which is rejected with
InsufficientBalance. -/
theorem rollback_insufficient :
    transaction.adjustBalanceWithStatement Faults.none
        [depositOf "a" 100, withdrawOf "a" 100] (sampleStore "a" 0)
      = ({ balances := [sampleBalance "a" 0],
           statements := [{ depositOf "a" 100 with Balance := 100 },
                          { withdrawOf "a" 100 with Balance := 0 }],
           transactions := [] }, none)
    ∧ usecase.RollbackFeeStatement [depositOf "a" 100, withdrawOf "a" 100]
      = [withdrawOf "a" 100, depositOf "a" 100]
    ∧ (transaction.adjustBalanceWithStatement Faults.none
        (usecase.RollbackFeeStatement [depositOf "a" 100, withdrawOf "a" 100])
        (transaction.adjustBalanceWithStatement Faults.none
          [depositOf "a" 100, withdrawOf "a" 100] (sampleStore "a" 0)).1).2
      = some (utils.ErrorBadRequest ErrorCode.InsufficientBalance "Insufficient balance") := by
  decide

/-- C6, amended. Let `S` be a list of statements none of which has both Deposit
and Withdraw non-zero, applied without error by `adjustBalanceWithStatement`.
Whenever applying the rollback list (Deposit and Withdraw swapped, same order)
immediately afterwards returns without error, the balance collection is exactly
what it was before `S`. The rollback does return without error, with that
result, when `S` holds withdraw statements only and the storage layer does not
fail. -/
theorem rollback_net_zero (F : Faults) (S : List Statement) (session applied : Store)
    (hexcl : ∀ s ∈ S, s.Deposit = 0 ∨ s.Withdraw = 0)
    (hS : transaction.adjustBalanceWithStatement F S session = (applied, none)) :
    (∀ rolled, transaction.adjustBalanceWithStatement F (usecase.RollbackFeeStatement S) applied
          = (rolled, none) → rolled.balances = session.balances)
    ∧ (StorageNeverFails F → (∀ s ∈ S, s.Deposit = 0) →
        ∃ rolled, transaction.adjustBalanceWithStatement F (usecase.RollbackFeeStatement S) applied
          = (rolled, none) ∧ rolled.balances = session.balances) := by
  have hback : ∀ rolled,
      transaction.adjustBalanceWithStatement F (usecase.RollbackFeeStatement S) applied
        = (rolled, none) → rolled.balances = session.balances := by
    intro rolled hR
    rw [adjustBalance_ok_balances F _ applied rolled hR,
      adjustBalance_ok_balances F S session applied hS]
    exact applyEffects_rollback S session.balances hexcl
  refine ⟨hback, ?_⟩
  intro hF hw
  have hstored := adjustBalance_ok_stored F S session applied hS hw
  have hnone : (transaction.adjustBalanceWithStatement F (usecase.RollbackFeeStatement S)
      applied).2 = none := by
    apply adjustBalance_deposits_succeed F hF
    · intro r hr
      obtain ⟨s, hs, rfl⟩ := List.mem_map.mp hr
      exact hw s hs
    · intro r hr hne
      obtain ⟨s, hs, rfl⟩ := List.mem_map.mp hr
      exact hstored s hs hne
  refine ⟨(transaction.adjustBalanceWithStatement F (usecase.RollbackFeeStatement S) applied).1,
    ?_, ?_⟩
  · rw [← hnone]
  · apply hback
    rw [← hnone]

/-- C6, amended, on a concrete batch: 100 in the balance, a fee of 30 withdrawn
and then rolled back. -/
theorem rollback_net_zero_witness :
    ∃ rolled, transaction.adjustBalanceWithStatement Faults.none
          (usecase.RollbackFeeStatement [withdrawOf "a" 30])
          { balances := [sampleBalance "a" 70],
            statements := [{ withdrawOf "a" 30 with Balance := 70 }],
            transactions := [] }
        = (rolled, none) ∧ rolled.balances = (sampleStore "a" 100).balances :=
  (rollback_net_zero Faults.none [withdrawOf "a" 30] (sampleStore "a" 100)
    { balances := [sampleBalance "a" 70],
      statements := [{ withdrawOf "a" 30 with Balance := 70 }],
      transactions := [] }
    (by decide) (by decide)).2
    ⟨fun _ _ => rfl, fun _ _ => rfl, fun _ _ => rfl⟩ (by decide)

/-! ## C7: the failed numbers of a bulk transfer -/

/-- C7 at a job of one item whose transfer fails with an error that is not a
`utils.CustomError`: the job ends COMPLETED, the item carries the reason
"Internal server error", and its number is not in `FailedNumber`. -/
theorem executeBulkTransfer_plain_error :
    (transfer_bank.executeBulkTransfer sampleEnv () sampleCorporate sampleUser "1234"
        (sampleJob [sampleItem 1 "crash"])).bulk
      = { sampleJob [{ sampleItem 1 "crash" with Reason := "Internal server error" }] with
          Status := BulkStatus.BULK_COMPLETED_STATUS, FailedNumber := [] } := by
  decide

/-! ## The loop of `executeBulkTransfer` -/

theorem modifyAt_length {α : Type} (f : α → α) (pre : List α) (a : α) (rest : List α) :
    modifyAt f pre.length (pre ++ a :: rest) = pre ++ f a :: rest := by
  induction pre with
  | nil => rfl
  | cons b pre ih => simp [modifyAt, ih]

theorem outcomes_cons {W : Type} (E : BulkEnv W) (call : Transfer → ExecuteCall) (t : Transfer)
    (rest : List Transfer) (w world : W) (trx : Transaction) (err : Option GoError)
    (h : E.Execute w (call t) = (world, trx, err)) :
    outcomes E call (t :: rest) w = (trx, err) :: outcomes E call rest world := by
  simp [outcomes, h]

theorem transferLoop_spec {W : Type} (E : BulkEnv W) (corporate : Corporate) (user : ActorAble)
    (pin : String) (rest : List Transfer) :
    ∀ (index : Nat) (run : transfer_bank.TransferRun W) (pre : List Transfer),
      run.bulk.List = pre ++ rest → pre.length = index →
      (transfer_bank.executeBulkTransfer.loop E corporate user pin index rest run).bulk
        = { run.bulk with
            List := pre ++ List.zipWith (stamp E) rest
              (outcomes E (callOf corporate user pin run.bulk.BalanceID.Hex) rest run.world),
            FailedNumber := run.bulk.FailedNumber ++ failedNumbers rest
              (outcomes E (callOf corporate user pin run.bulk.BalanceID.Hex) rest run.world) }
      ∧ (transfer_bank.executeBulkTransfer.loop E corporate user pin index rest run).trace
        = run.trace ++ rest.map
            (fun t => BulkEvent.Execute (callOf corporate user pin run.bulk.BalanceID.Hex t)) := by
  induction rest with
  | nil =>
    intro index run pre hlist _
    simp [transfer_bank.executeBulkTransfer.loop, outcomes, failedNumbers, ← hlist]
  | cons t rest ih =>
    intro index run pre hlist hlen
    subst hlen
    unfold transfer_bank.executeBulkTransfer.loop
    rcases hex : E.Execute run.world (callOf corporate user pin run.bulk.BalanceID.Hex t)
      with ⟨world, trx, err⟩
    rw [outcomes_cons E _ t rest run.world world trx err hex]
    cases err with
    | none =>
      simp only [hex]
      have := ih (pre.length + 1)
        { world := world,
          bulk := { run.bulk with
            List := modifyAt (fun t => { t with TransactionCode := trx.TransactionCode })
              pre.length run.bulk.List },
          trace := run.trace ++
            [BulkEvent.Execute (callOf corporate user pin run.bulk.BalanceID.Hex t)] }
        (pre ++ [{ t with TransactionCode := trx.TransactionCode }])
        (by simp [hlist, modifyAt_length]) (by simp)
      simp only at this
      rw [this.1, this.2]
      simp [stamp, failedNumbers]
    | some e =>
      cases e with
      | other text =>
        simp only [hex]
        have := ih (pre.length + 1)
          { world := world,
            bulk := { run.bulk with
              List := modifyAt (fun t => { t with Reason := "Internal server error" })
                pre.length run.bulk.List },
            trace := run.trace ++
              [BulkEvent.Execute (callOf corporate user pin run.bulk.BalanceID.Hex t)] }
          (pre ++ [{ t with Reason := "Internal server error" }])
          (by simp [hlist, modifyAt_length]) (by simp)
        simp only at this
        rw [this.1, this.2]
        simp [stamp, failedNumbers]
      | custom kind code message =>
        simp only [hex]
        have := ih (pre.length + 1)
          { world := world,
            bulk := { run.bulk with
              List := modifyAt (fun t => { t with Reason := E.ResponseDescription code })
                pre.length run.bulk.List,
              FailedNumber := run.bulk.FailedNumber ++ [t.Number] },
            trace := run.trace ++
              [BulkEvent.Execute (callOf corporate user pin run.bulk.BalanceID.Hex t)] }
          (pre ++ [{ t with Reason := E.ResponseDescription code }])
          (by simp [hlist, modifyAt_length]) (by simp)
        simp only at this
        rw [this.1, this.2]
        simp [stamp, failedNumbers]

theorem executeBulkTransfer_spec {W : Type} (E : BulkEnv W) (w : W) (corporate : Corporate)
    (user : ActorAble) (pin : String) (bulk : BulkTransfer) :
    (transfer_bank.executeBulkTransfer E w corporate user pin bulk).bulk
      = { bulk with
          Status := BulkStatus.BULK_COMPLETED_STATUS,
          List := List.zipWith (stamp E) bulk.List
            (outcomes E (callOf corporate user pin bulk.BalanceID.Hex) bulk.List w),
          FailedNumber := bulk.FailedNumber ++ failedNumbers bulk.List
            (outcomes E (callOf corporate user pin bulk.BalanceID.Hex) bulk.List w) }
    ∧ (transfer_bank.executeBulkTransfer E w corporate user pin bulk).trace
      = [BulkEvent.BulkTransferUpdateOne { bulk with Status := BulkStatus.BULK_PROGRESS_STATUS }]
        ++ bulk.List.map
            (fun t => BulkEvent.Execute (callOf corporate user pin bulk.BalanceID.Hex t))
        ++ [BulkEvent.BulkTransferUpdateOne
              (transfer_bank.executeBulkTransfer E w corporate user pin bulk).bulk,
            BulkEvent.PublishBulkCallback bulk.Owner bulk.ID.Hex
              BulkStatus.BULK_COMPLETED_STATUS corporate.BulkTransferCallbackURL] := by
  have h := transferLoop_spec E corporate user pin bulk.List 0
    { world := w, bulk := { bulk with Status := BulkStatus.BULK_PROGRESS_STATUS },
      trace := [BulkEvent.BulkTransferUpdateOne
        { bulk with Status := BulkStatus.BULK_PROGRESS_STATUS }] }
    [] rfl rfl
  simp only [List.nil_append] at h
  constructor
  · simp only [transfer_bank.executeBulkTransfer]
    rw [h.1]
  · simp only [transfer_bank.executeBulkTransfer]
    rw [h.1, h.2]

theorem outcomes_length {W : Type} (E : BulkEnv W) (call : Transfer → ExecuteCall)
    (ts : List Transfer) (w : W) : (outcomes E call ts w).length = ts.length := by
  induction ts generalizing w with
  | nil => rfl
  | cons t rest ih =>
    rcases hex : E.Execute w (call t) with ⟨world, trx, err⟩
    rw [outcomes_cons E call t rest w world trx err hex]
    simp [ih]

theorem failedNumbers_mem (ts : List Transfer) :
    ∀ (os : List (Transaction × Option GoError)) (i : Nat) (t : Transfer) (trx : Transaction)
      (kind : ErrorKind) (code : ErrorCode) (message : String),
      ts[i]? = some t → os[i]? = some (trx, some (GoError.custom kind code message)) →
      t.Number ∈ failedNumbers ts os := by
  induction ts with
  | nil => intro os i t trx kind code message ht; simp at ht
  | cons a rest ih =>
    intro os i t trx kind code message ht ho
    cases os with
    | nil => simp at ho
    | cons o os =>
      cases i with
      | zero =>
        simp only [List.getElem?_cons_zero, Option.some.injEq] at ht ho
        subst ht ho
        simp [failedNumbers]
      | succ i =>
        simp only [List.getElem?_cons_succ] at ht ho
        have hrec := ih os i t trx kind code message ht ho
        rcases o with ⟨x, _ | e⟩
        · simpa [failedNumbers] using hrec
        · cases e with
          | other text => simpa [failedNumbers] using hrec
          | custom k c m => simp [failedNumbers, hrec]

/-! ## C8: per-item failure isolation in a bulk transfer -/

/-- C8 as stated fails for a job whose item already carries a transaction code:
the loop writes the reason of a failed transfer and leaves the other fields of
the item alone. One item with transaction code "OLD" whose transfer fails with
InsufficientBalance ends with a reason and still with "OLD". -/
theorem executeBulkTransfer_keeps_code :
    (sampleEnv.Execute () (callOf sampleCorporate sampleUser "1234" "a"
        { sampleItem 1 "poor" with TransactionCode := "OLD" })).2.2
      = some (utils.ErrorBadRequest ErrorCode.InsufficientBalance "Insufficient balance")
    ∧ (transfer_bank.executeBulkTransfer sampleEnv () sampleCorporate sampleUser "1234"
        (sampleJob [{ sampleItem 1 "poor" with TransactionCode := "OLD" }])).bulk.List
      = [{ sampleItem 1 "poor" with
            TransactionCode := "OLD", Reason := "Insufficient balance" }] := by
  decide

/-- C8, amended. Take a job whose items carry no reason and no transaction code,
and a description table with a non-empty entry for every error code. Whatever
each transfer returns, `executeBulkTransfer` calls `Execute` exactly once per
item, in input order, between the two job updates; the list keeps its length,
and at every index the item keeps its number, destination, amount and external
ID; an item whose transfer succeeded carries that transfer's transaction code
and no reason; an item whose transfer failed carries a reason and no transaction
code, and when the failure is a domain error its number is in `FailedNumber`. -/
theorem executeBulkTransfer_isolation {W : Type} (E : BulkEnv W) (w : W)
    (corporate : Corporate) (user : ActorAble) (pin : String) (bulk : BulkTransfer)
    (hfresh : ∀ t ∈ bulk.List, t.Reason = "" ∧ t.TransactionCode = "")
    (hdesc : ∀ code, E.ResponseDescription code ≠ "") :
    (transfer_bank.executeBulkTransfer E w corporate user pin bulk).trace
      = [BulkEvent.BulkTransferUpdateOne { bulk with Status := BulkStatus.BULK_PROGRESS_STATUS }]
        ++ bulk.List.map
            (fun t => BulkEvent.Execute (callOf corporate user pin bulk.BalanceID.Hex t))
        ++ [BulkEvent.BulkTransferUpdateOne
              (transfer_bank.executeBulkTransfer E w corporate user pin bulk).bulk,
            BulkEvent.PublishBulkCallback bulk.Owner bulk.ID.Hex
              BulkStatus.BULK_COMPLETED_STATUS corporate.BulkTransferCallbackURL]
    ∧ (transfer_bank.executeBulkTransfer E w corporate user pin bulk).bulk.List.length
      = bulk.List.length
    ∧ (outcomes E (callOf corporate user pin bulk.BalanceID.Hex) bulk.List w).length
      = bulk.List.length
    ∧ ∀ (i : Nat) (t : Transfer) (o : Transaction × Option GoError),
        bulk.List[i]? = some t →
        (outcomes E (callOf corporate user pin bulk.BalanceID.Hex) bulk.List w)[i]? = some o →
        ∃ r, (transfer_bank.executeBulkTransfer E w corporate user pin bulk).bulk.List[i]? = some r
          ∧ r.Number = t.Number ∧ r.ToBankAccount = t.ToBankAccount ∧ r.Amount = t.Amount
          ∧ r.ExternalID = t.ExternalID
          ∧ (o.2 = none → r.TransactionCode = o.1.TransactionCode ∧ r.Reason = "")
          ∧ (o.2 ≠ none → r.Reason ≠ "" ∧ r.TransactionCode = "")
          ∧ (∀ kind code message, o.2 = some (GoError.custom kind code message) →
              r.Number ∈
                (transfer_bank.executeBulkTransfer E w corporate user pin bulk).bulk.FailedNumber) := by
  obtain ⟨hbulk, htrace⟩ := executeBulkTransfer_spec E w corporate user pin bulk
  have hlen := outcomes_length E (callOf corporate user pin bulk.BalanceID.Hex) bulk.List w
  refine ⟨htrace, ?_, hlen, ?_⟩
  · rw [hbulk]
    simp [hlen]
  · intro i t o ht ho
    rw [hbulk]
    refine ⟨stamp E t o, ?_, ?_⟩
    · simp [List.getElem?_zipWith, ht, ho]
    · obtain ⟨hr, hc⟩ := hfresh t (List.mem_iff_getElem?.mpr ⟨i, ht⟩)
      rcases o with ⟨trx, _ | e⟩
      · simp [stamp, hr]
      · cases e with
        | other text => simp [stamp, hc]
        | custom kind code message =>
          have hmem := failedNumbers_mem bulk.List _ i t trx kind code message ht ho
          simp [stamp, hc, hdesc code, hmem]

/-- C8, amended, on the scenario of the spec: three items, the second fails
with insufficient funds. -/
theorem executeBulkTransfer_isolation_witness :
    (transfer_bank.executeBulkTransfer sampleEnv () sampleCorporate sampleUser "1234"
        (sampleJob [sampleItem 1 "x1", sampleItem 2 "poor", sampleItem 3 "x3"])).bulk.List.length
      = 3
    ∧ ∃ r, (transfer_bank.executeBulkTransfer sampleEnv () sampleCorporate sampleUser "1234"
          (sampleJob [sampleItem 1 "x1", sampleItem 2 "poor", sampleItem 3 "x3"])).bulk.List[1]?
          = some r
        ∧ r.Number = 2 ∧ r.Reason ≠ "" ∧ r.TransactionCode = ""
        ∧ r.Number ∈ (transfer_bank.executeBulkTransfer sampleEnv () sampleCorporate sampleUser
            "1234" (sampleJob [sampleItem 1 "x1", sampleItem 2 "poor",
              sampleItem 3 "x3"])).bulk.FailedNumber := by
  have h := executeBulkTransfer_isolation sampleEnv () sampleCorporate sampleUser "1234"
    (sampleJob [sampleItem 1 "x1", sampleItem 2 "poor", sampleItem 3 "x3"])
    (by decide) (by intro code; cases code <;> simp [sampleEnv])
  refine ⟨h.2.1, ?_⟩
  obtain ⟨r, hr, hnum, _, _, _, _, hfail, hmem⟩ := h.2.2.2 1 (sampleItem 2 "poor")
    ({ TransactionCode := "", Amount := 0 },
      some (utils.ErrorBadRequest ErrorCode.InsufficientBalance "Insufficient balance"))
    (by decide) (by decide)
  exact ⟨r, hr, hnum, (hfail (by decide)).1, (hfail (by decide)).2,
    hmem ErrorKind.BadRequest ErrorCode.InsufficientBalance "Insufficient balance" rfl⟩

/-! ## C9: bulk inquiry -/

theorem inquiryOutcomes_cons {W : Type} (E : BulkEnv W) (inq : Inquiry) (rest : List Inquiry)
    (w world : W) (bank : Bank) (err : Option GoError)
    (h : E.InquiryBankAccount w inq.AccountNumber inq.BankName = (world, bank, err)) :
    inquiryOutcomes E (inq :: rest) w = (bank, err) :: inquiryOutcomes E rest world := by
  simp [inquiryOutcomes, h]

theorem inquiryOutcomes_length {W : Type} (E : BulkEnv W) (l : List Inquiry) (w : W) :
    (inquiryOutcomes E l w).length = l.length := by
  induction l generalizing w with
  | nil => rfl
  | cons inq rest ih =>
    rcases hin : E.InquiryBankAccount w inq.AccountNumber inq.BankName with ⟨world, bank, err⟩
    rw [inquiryOutcomes_cons E inq rest w world bank err hin]
    simp [ih]

theorem inquiryLoop_spec {W : Type} (E : BulkEnv W) (rest : List Inquiry) :
    ∀ (run : transfer_bank.InquiryRun W),
      (transfer_bank.executeBulkInquiry.loop E rest run).result
        = run.result ++ List.zipWith (answer E) rest (inquiryOutcomes E rest run.world)
      ∧ (transfer_bank.executeBulkInquiry.loop E rest run).trace
        = run.trace ++ rest.map
            (fun inq => BulkEvent.InquiryBankAccount inq.AccountNumber inq.BankName) := by
  induction rest with
  | nil =>
    intro run
    simp [transfer_bank.executeBulkInquiry.loop, inquiryOutcomes]
  | cons inq rest ih =>
    intro run
    unfold transfer_bank.executeBulkInquiry.loop
    rcases hin : E.InquiryBankAccount run.world inq.AccountNumber inq.BankName
      with ⟨world, bank, err⟩
    rw [inquiryOutcomes_cons E inq rest run.world world bank err hin]
    cases err with
    | none =>
      simp only [hin]
      rw [(ih _).1, (ih _).2]
      simp [answer]
    | some e =>
      simp only [hin]
      rw [(ih _).1, (ih _).2]
      simp [answer]

/-- C9. Whatever each bank-account inquiry returns, the job that
`executeBulkInquiry` hands to `service.BulkInquiryUpdateOne` has status
COMPLETED and a result list of the length of the input list; at every index the
result item has the Number, AccountNumber and BankName of the input item; when
the inquiry for that item succeeded it is Valid with an empty Reason and the
account name the inquiry returned, and when the inquiry failed it is not Valid,
has a non-empty Reason and the account name of the input item. -/
theorem executeBulkInquiry_results {W : Type} (E : BulkEnv W) (w : W) (corporate : Corporate)
    (actor : ActorObject) (bulk : BulkInquiry) :
    BulkEvent.BulkInquiryUpdateOne (transfer_bank.executeBulkInquiry E w corporate actor bulk).bulk
      ∈ (transfer_bank.executeBulkInquiry E w corporate actor bulk).trace
    ∧ (transfer_bank.executeBulkInquiry E w corporate actor bulk).bulk.Status
      = BulkStatus.BULK_COMPLETED_STATUS
    ∧ (transfer_bank.executeBulkInquiry E w corporate actor bulk).bulk.List.length
      = bulk.List.length
    ∧ (inquiryOutcomes E bulk.List w).length = bulk.List.length
    ∧ ∀ (i : Nat) (inq : Inquiry) (o : Bank × Option GoError),
        bulk.List[i]? = some inq → (inquiryOutcomes E bulk.List w)[i]? = some o →
        ∃ r, (transfer_bank.executeBulkInquiry E w corporate actor bulk).bulk.List[i]? = some r
          ∧ r.Number = inq.Number ∧ r.AccountNumber = inq.AccountNumber
          ∧ r.BankName = inq.BankName
          ∧ (o.2 = none → r.Valid = true ∧ r.Reason = "" ∧ r.AccountName = o.1.Name)
          ∧ (o.2 ≠ none → r.Valid = false ∧ r.Reason ≠ "" ∧ r.AccountName = inq.AccountName) := by
  have hloop := inquiryLoop_spec E bulk.List { world := w, result := [], trace := [] }
  have hlen := inquiryOutcomes_length E bulk.List w
  have hlist : (transfer_bank.executeBulkInquiry E w corporate actor bulk).bulk.List
      = List.zipWith (answer E) bulk.List (inquiryOutcomes E bulk.List w) := by
    simp only [transfer_bank.executeBulkInquiry]
    rw [hloop.1]
    rfl
  refine ⟨?_, rfl, ?_, hlen, ?_⟩
  · simp [transfer_bank.executeBulkInquiry]
  · rw [hlist]
    simp [hlen]
  · intro i inq o hi ho
    rw [hlist]
    refine ⟨answer E inq o, ?_, ?_⟩
    · simp [List.getElem?_zipWith, hi, ho]
    · rcases o with ⟨bank, _ | e⟩
      · simp [answer]
      · by_cases htext : errorText E e = ""
        · simp [answer, htext]
        · simp [answer, htext]

/-- C9 on a concrete job: the first item is answered, the inquiry for the second
fails with an error whose text is empty. -/
theorem executeBulkInquiry_results_witness :
    ∃ r, (transfer_bank.executeBulkInquiry sampleEnv () sampleCorporate ⟨⟨"user"⟩, "user"⟩
          { ID := ⟨"q1"⟩, Status := BulkStatus.other "",
            List := [sampleInquiry 1 "bank", sampleInquiry 2 "nowhere"] }).bulk.List[1]? = some r
      ∧ r.Number = 2 ∧ r.Valid = false ∧ r.Reason ≠ "" ∧ r.AccountName = "typed" := by
  obtain ⟨r, hr, hnum, _, _, _, hfail⟩ :=
    (executeBulkInquiry_results sampleEnv () sampleCorporate ⟨⟨"user"⟩, "user"⟩
      { ID := ⟨"q1"⟩, Status := BulkStatus.other "",
        List := [sampleInquiry 1 "bank", sampleInquiry 2 "nowhere"] }).2.2.2.2
      1 (sampleInquiry 2 "nowhere")
      ({ BankName := "", AccountNumber := "", Name := "" }, some (GoError.other ""))
      (by decide) (by decide)
  exact ⟨r, hr, hnum, (hfail (by decide)).1, (hfail (by decide)).2.1, (hfail (by decide)).2.2⟩

/-! ## C10: the status of a bulk transfer job -/

/-- C10. For a job that `service.BulkTransferByID` finds: when its status is not
UNEXECUTED, `ActorExecuteBulkTransfer` returns the BulkNotFound error and
launches nothing; when it has a creation time, its status is UNEXECUTED and the
PIN, balance-access and verification checks pass, `ActorExecuteBulkTransfer`
launches the execution of that job once and returns the job with status
IN_PROGRESS. And `executeBulkTransfer` on any job updates the stored job exactly
twice: with status IN_PROGRESS before the first transfer, and with status
COMPLETED after the last transfer; it persists no other status. -/
theorem bulk_status_moves {W : Type} (E : BulkEnv W) (w : W) (corporate : Corporate)
    (user : ActorAble) (pin : String) (bulkID : String) (stored job : BulkTransfer)
    (hfound : E.BulkTransferByID bulkID = (stored, none)) :
    (stored.Status ≠ BulkStatus.BULK_UNEXECUTED_STATUS →
      transfer_bank.ActorExecuteBulkTransfer E user pin bulkID
        = { bulk := BulkTransfer.zero,
            err := some (utils.ErrorBadRequest ErrorCode.BulkNotFound
              "Bulk Not found or already executed"),
            launched := [] })
    ∧ (stored.Time ≠ "" → stored.Status = BulkStatus.BULK_UNEXECUTED_STATUS →
        E.ValidateActorPIN user pin = none →
        E.ValidateAccessBalance user stored.BalanceID.Hex = none →
        E.ValidateIsVerify user = none →
        transfer_bank.ActorExecuteBulkTransfer E user pin bulkID
          = { bulk := { stored with Status := BulkStatus.BULK_PROGRESS_STATUS },
              err := none, launched := [stored] })
    ∧ (∃ first last,
        (transfer_bank.executeBulkTransfer E w corporate user pin job).trace
          = [BulkEvent.BulkTransferUpdateOne first]
            ++ job.List.map
                (fun t => BulkEvent.Execute (callOf corporate user pin job.BalanceID.Hex t))
            ++ [BulkEvent.BulkTransferUpdateOne last,
                BulkEvent.PublishBulkCallback job.Owner job.ID.Hex
                  BulkStatus.BULK_COMPLETED_STATUS corporate.BulkTransferCallbackURL]
        ∧ first.Status = BulkStatus.BULK_PROGRESS_STATUS
        ∧ last.Status = BulkStatus.BULK_COMPLETED_STATUS)
    ∧ (∀ b, BulkEvent.BulkTransferUpdateOne b
          ∈ (transfer_bank.executeBulkTransfer E w corporate user pin job).trace →
        b.Status = BulkStatus.BULK_PROGRESS_STATUS
          ∨ b.Status = BulkStatus.BULK_COMPLETED_STATUS) := by
  obtain ⟨hbulk, htrace⟩ := executeBulkTransfer_spec E w corporate user pin job
  have hlast : (transfer_bank.executeBulkTransfer E w corporate user pin job).bulk.Status
      = BulkStatus.BULK_COMPLETED_STATUS := by rw [hbulk]
  refine ⟨?_, ?_, ⟨_, _, htrace, rfl, hlast⟩, ?_⟩
  · intro hstatus
    simp [transfer_bank.ActorExecuteBulkTransfer, hfound, hstatus]
  · intro htime hstatus hpin haccess hverify
    simp [transfer_bank.ActorExecuteBulkTransfer, hfound, htime, hstatus, hpin, haccess, hverify]
  · intro b hb
    rw [htrace] at hb
    simp only [List.mem_append, List.mem_cons, List.mem_singleton, List.mem_map,
      BulkEvent.BulkTransferUpdateOne.injEq, List.not_mem_nil, or_false, reduceCtorEq,
      and_false, exists_false] at hb
    rcases hb with hb | hb
    · left; rw [hb]
    · right; rw [hb]; exact hlast

/-- C10 on the sample job store: the completed job `j2` is refused, the
unexecuted job `j1` is launched once and returned IN_PROGRESS. -/
theorem bulk_status_moves_witness :
    transfer_bank.ActorExecuteBulkTransfer sampleEnv sampleUser "1234" "j2"
      = { bulk := BulkTransfer.zero,
          err := some (utils.ErrorBadRequest ErrorCode.BulkNotFound
            "Bulk Not found or already executed"),
          launched := [] }
    ∧ transfer_bank.ActorExecuteBulkTransfer sampleEnv sampleUser "1234" "j1"
      = { bulk := { sampleJob [] with Status := BulkStatus.BULK_PROGRESS_STATUS },
          err := none, launched := [sampleJob []] } :=
  ⟨(bulk_status_moves sampleEnv () sampleCorporate sampleUser "1234" "j2"
      { sampleJob [] with ID := ⟨"j2"⟩, Status := BulkStatus.BULK_COMPLETED_STATUS }
      (sampleJob []) rfl).1 (by decide),
   (bulk_status_moves sampleEnv () sampleCorporate sampleUser "1234" "j1"
      (sampleJob []) (sampleJob []) rfl).2.1 (by decide) rfl rfl rfl rfl⟩

/-! ## C14: the statements that a batch persists -/

theorem DepositBalance_statements (F : Faults) (statement : Statement) (session : Store) :
    (usecase.DepositBalance F statement session).1.statements = session.statements
    ∨ ∃ x, (usecase.DepositBalance F statement session).1.statements
        = session.statements ++ [{ statement with Balance := x }] := by
  simp only [usecase.DepositBalance, service.BalanceByID, service.BalanceUpdate,
    service.StatementSaveOne]
  cases h1 : F.BalanceByID session statement.BalanceID.Hex with
  | some e => exact Or.inl rfl
  | none =>
    cases h2 : service.findBalance statement.BalanceID.Hex session.balances with
    | none => exact Or.inl rfl
    | some b =>
      simp only
      cases h3 : F.BalanceUpdate session { b with Amount := b.Amount + statement.Deposit } with
      | some e => exact Or.inl rfl
      | none =>
        simp only
        cases h4 : F.StatementSaveOne
            { session with
              balances := service.replaceBalance
                { b with Amount := b.Amount + statement.Deposit } session.balances }
            { statement with Balance := b.Amount + statement.Deposit } with
        | some e => exact Or.inl rfl
        | none => exact Or.inr ⟨b.Amount + statement.Deposit, rfl⟩

theorem WithdrawBalance_statements (F : Faults) (statement : Statement) (session : Store) :
    (usecase.WithdrawBalance F statement session).1.statements = session.statements
    ∨ ∃ x, (usecase.WithdrawBalance F statement session).1.statements
        = session.statements ++ [{ statement with Balance := x }] := by
  simp only [usecase.WithdrawBalance, service.BalanceByID, service.BalanceUpdate,
    service.StatementSaveOne]
  cases h1 : F.BalanceByID session statement.BalanceID.Hex with
  | some e => exact Or.inl rfl
  | none =>
    cases h2 : service.findBalance statement.BalanceID.Hex session.balances with
    | none => exact Or.inl rfl
    | some b =>
      simp only
      by_cases hlt : b.Amount < statement.Withdraw
      · rw [if_pos hlt]
        exact Or.inl rfl
      · rw [if_neg hlt]
        cases h3 : F.BalanceUpdate session { b with Amount := b.Amount - statement.Withdraw } with
        | some e => exact Or.inl rfl
        | none =>
          simp only
          cases h4 : F.StatementSaveOne
              { session with
                balances := service.replaceBalance
                  { b with Amount := b.Amount - statement.Withdraw } session.balances }
              { statement with Balance := b.Amount - statement.Withdraw } with
          | some e => exact Or.inl rfl
          | none => exact Or.inr ⟨b.Amount - statement.Withdraw, rfl⟩

theorem adjustBalance_added (F : Faults) (statements : List Statement) (session : Store) :
    ∃ added, (transaction.adjustBalanceWithStatement F statements session).1.statements
        = session.statements ++ added
      ∧ ∀ s ∈ added, (s.Deposit ≠ 0 ∨ s.Withdraw ≠ 0)
          ∧ ∃ t ∈ statements, s = { t with Balance := s.Balance } := by
  induction statements generalizing session with
  | nil => exact ⟨[], by simp [transaction.adjustBalanceWithStatement], by simp⟩
  | cons t rest ih =>
    rw [adjustBalance_cons]
    have lift : ∀ (mid : Store) (extra : List Statement),
        mid.statements = session.statements ++ extra →
        (∀ s ∈ extra, (s.Deposit ≠ 0 ∨ s.Withdraw ≠ 0)
          ∧ ∃ u ∈ t :: rest, s = { u with Balance := s.Balance }) →
        ∃ added, (transaction.adjustBalanceWithStatement F rest mid).1.statements
            = session.statements ++ added
          ∧ ∀ s ∈ added, (s.Deposit ≠ 0 ∨ s.Withdraw ≠ 0)
              ∧ ∃ u ∈ t :: rest, s = { u with Balance := s.Balance } := by
      intro mid extra hmid hextra
      obtain ⟨more, hmore, hall⟩ := ih mid
      refine ⟨extra ++ more, by rw [hmore, hmid, List.append_assoc], ?_⟩
      intro s hs
      rcases List.mem_append.mp hs with h | h
      · exact hextra s h
      · obtain ⟨hnz, u, hu, heq⟩ := hall s h
        exact ⟨hnz, u, List.mem_cons_of_mem _ hu, heq⟩
    have one : ∀ x, (t.Deposit ≠ 0 ∨ t.Withdraw ≠ 0) →
        ∀ s ∈ [({ t with Balance := x } : Statement)], (s.Deposit ≠ 0 ∨ s.Withdraw ≠ 0)
          ∧ ∃ u ∈ t :: rest, s = { u with Balance := s.Balance } := by
      intro x hnz s hs
      rw [List.mem_singleton] at hs
      subst hs
      exact ⟨hnz, t, List.mem_cons_self _ _, rfl⟩
    by_cases hd : t.Deposit ≠ 0
    · rw [if_pos hd]
      have hst := DepositBalance_statements F t session
      cases hrun : usecase.DepositBalance F t session with
      | mk next err =>
        rw [hrun] at hst
        cases err with
        | some e =>
          rcases hst with h | ⟨x, h⟩
          · exact ⟨[], by simpa using h, by simp⟩
          · exact ⟨[{ t with Balance := x }], h, one x (Or.inl hd)⟩
        | none =>
          rcases hst with h | ⟨x, h⟩
          · exact lift next [] (by simpa using h) (by simp)
          · exact lift next [{ t with Balance := x }] h (one x (Or.inl hd))
    · rw [if_neg hd]
      by_cases hw : t.Withdraw ≠ 0
      · rw [if_pos hw]
        have hst := WithdrawBalance_statements F t session
        cases hrun : usecase.WithdrawBalance F t session with
        | mk next err =>
          rw [hrun] at hst
          cases err with
          | some e =>
            rcases hst with h | ⟨x, h⟩
            · exact ⟨[], by simpa using h, by simp⟩
            · exact ⟨[{ t with Balance := x }], h, one x (Or.inr hw)⟩
          | none =>
            rcases hst with h | ⟨x, h⟩
            · exact lift next [] (by simpa using h) (by simp)
            · exact lift next [{ t with Balance := x }] h (one x (Or.inr hw))
      · rw [if_neg hw]
        exact lift session [] (by simp) (by simp)

/-- C14 as stated fails: a statement with both Deposit and Withdraw non-zero is
taken by the first branch of the loop, applied as a deposit and persisted as it
is. Balance 100, one statement with Deposit 5 and Withdraw 3: the ledger
receives that statement, with both amounts non-zero. -/
theorem adjustBalance_persists_both :
    transaction.adjustBalanceWithStatement Faults.none
        [{ depositOf "a" 5 with Withdraw := 3 }] (sampleStore "a" 100)
      = ({ balances := [sampleBalance "a" 105],
           statements := [{ depositOf "a" 5 with Withdraw := 3, Balance := 105 }],
           transactions := [] }, none)
    ∧ ({ depositOf "a" 5 with Withdraw := 3, Balance := 105 } : Statement).Deposit ≠ 0
    ∧ ({ depositOf "a" 5 with Withdraw := 3, Balance := 105 } : Statement).Withdraw ≠ 0 := by
  decide

/-- C14, amended. Whatever list of statements `adjustBalanceWithStatement` is
given, and whether or not it ends in an error, the ledger it leaves is the
ledger it found followed by statements it persisted, and each persisted
statement is an input statement with its resulting-balance field stamped and has
at least one of Deposit and Withdraw non-zero; when no input statement has both
non-zero, every persisted statement has exactly one of them non-zero. -/
theorem adjustBalance_persisted (F : Faults) (statements : List Statement) (session : Store) :
    ∃ added, (transaction.adjustBalanceWithStatement F statements session).1.statements
        = session.statements ++ added
      ∧ (∀ s ∈ added, (s.Deposit ≠ 0 ∨ s.Withdraw ≠ 0)
          ∧ ∃ t ∈ statements, s = { t with Balance := s.Balance })
      ∧ ((∀ t ∈ statements, t.Deposit = 0 ∨ t.Withdraw = 0) →
          ∀ s ∈ added, (s.Deposit ≠ 0 ∧ s.Withdraw = 0) ∨ (s.Deposit = 0 ∧ s.Withdraw ≠ 0)) := by
  obtain ⟨added, hadded, hall⟩ := adjustBalance_added F statements session
  refine ⟨added, hadded, hall, ?_⟩
  intro hexcl s hs
  obtain ⟨hnz, t, ht, heq⟩ := hall s hs
  have hd : s.Deposit = t.Deposit := by rw [heq]
  have hw : s.Withdraw = t.Withdraw := by rw [heq]
  rcases hexcl t ht with h | h
  · right
    rw [hd, hw] at hnz ⊢
    exact ⟨h, by rcases hnz with hn | hn; exact absurd h hn; exact hn⟩
  · left
    rw [hd, hw] at hnz ⊢
    exact ⟨by rcases hnz with hn | hn; exact hn; exact absurd h hn, h⟩

/-- C14, amended, on a concrete batch: 100 in the balance, deposit 50 then
withdraw 20. -/
theorem adjustBalance_persisted_witness :
    ∃ added, (transaction.adjustBalanceWithStatement Faults.none
          [depositOf "a" 50, withdrawOf "a" 20] (sampleStore "a" 100)).1.statements
        = (sampleStore "a" 100).statements ++ added
      ∧ ∀ s ∈ added, (s.Deposit ≠ 0 ∧ s.Withdraw = 0) ∨ (s.Deposit = 0 ∧ s.Withdraw ≠ 0) := by
  obtain ⟨added, hadded, _, hexcl⟩ := adjustBalance_persisted Faults.none
    [depositOf "a" 50, withdrawOf "a" 20] (sampleStore "a" 100)
  exact ⟨added, hadded, hexcl (by decide)⟩

/-! ## Lookup and replacement of actors and requests -/

theorem findRequest_hex {requestID : String} {l : List RequestAccessBalance}
    {r : RequestAccessBalance} (h : findRequest requestID l = some r) : r.ID.Hex = requestID := by
  induction l with
  | nil => simp [findRequest] at h
  | cons c rest ih =>
    unfold findRequest at h
    split at h
    · cases h; assumption
    · exact ih h

theorem findRequest_replace_same {requestID : String} {l : List RequestAccessBalance}
    {r : RequestAccessBalance} (c : RequestAccessBalance)
    (h : findRequest requestID l = some r) (hc : c.ID.Hex = requestID) :
    findRequest requestID (replaceRequest c l) = some c := by
  induction l with
  | nil => simp [findRequest] at h
  | cons d rest ih =>
    unfold findRequest at h
    unfold replaceRequest
    by_cases hd : d.ID.Hex = requestID
    · simp [hd, hc, findRequest]
    · simp only [hd, if_false] at h
      have hne : ¬ d.ID.Hex = c.ID.Hex := by rw [hc]; exact hd
      simp [hne, findRequest, hd, ih h]

theorem findActor_hex {actorID : String} {l : List ActorAble} {a : ActorAble}
    (h : findActor actorID l = some a) : a.ActorID.Hex = actorID := by
  induction l with
  | nil => simp [findActor] at h
  | cons c rest ih =>
    unfold findActor at h
    split at h
    · cases h; assumption
    · exact ih h

theorem findActor_replace_same {actorID : String} {l : List ActorAble} {a : ActorAble}
    (c : ActorAble) (h : findActor actorID l = some a) (hc : c.ActorID.Hex = actorID) :
    findActor actorID (replaceActor c l) = some c := by
  induction l with
  | nil => simp [findActor] at h
  | cons d rest ih =>
    unfold findActor at h
    unfold replaceActor
    by_cases hd : d.ActorID.Hex = actorID
    · simp [hd, hc, findActor]
    · simp only [hd, if_false] at h
      have hne : ¬ d.ActorID.Hex = c.ActorID.Hex := by rw [hc]; exact hd
      simp [hne, findActor, hd, ih h]

theorem findActor_replace_other {actorID : String} {l : List ActorAble} {c : ActorAble}
    (hc : c.ActorID.Hex ≠ actorID) :
    findActor actorID (replaceActor c l) = findActor actorID l := by
  induction l with
  | nil => simp [replaceActor]
  | cons d rest ih =>
    unfold replaceActor
    by_cases hd : d.ActorID.Hex = c.ActorID.Hex
    · have hne : ¬ d.ActorID.Hex = actorID := by rw [hd]; exact hc
      simp [hd, findActor, hc]
    · simp [hd, findActor, ih]

/-! ## C11: resolving a request that is already resolved -/

/-- C11. For a stored access request whose status is not PENDING, whatever the
decision, the resolver and the PIN, `ProccedRAB` fails, returns the zero request
and leaves the world as it was: no grant is added to any actor and no change to
the request is persisted. Once the requester named by the request has been
resolved (the step the code takes before it looks at the status), the error is
RequestAccessBalanceAlreadyProcced. -/
theorem ProccedRAB_resolved (env : AccessEnv) (requestID : String) (status : RequestStatus)
    (owner : ActorAble) (pin : String) (w : AccessWorld) (request : RequestAccessBalance)
    (hread : env.RABByID w requestID = none)
    (hstored : findRequest requestID w.requests = some request)
    (hstatus : request.Status ≠ RequestStatus.REQUEST_ACCESS_BALANCE_STATUS_PENDING) :
    (usecase.ProccedRAB env requestID status owner pin w).1 = w
    ∧ (usecase.ProccedRAB env requestID status owner pin w).2.1 = RequestAccessBalance.zero
    ∧ (usecase.ProccedRAB env requestID status owner pin w).2.2 ≠ none
    ∧ ∀ requester, usecase.ActorObjectToActor env request.BalanceRequester w
          = Except.ok requester →
        usecase.ProccedRAB env requestID status owner pin w
          = (w, RequestAccessBalance.zero,
              some (utils.ErrorBadRequest ErrorCode.RequestAccessBalanceAlreadyProcced
                "Request already procced")) := by
  have hload : service.RABByID env requestID w = Except.ok request := by
    simp [service.RABByID, hread, hstored]
  cases hreq : usecase.ActorObjectToActor env request.BalanceRequester w with
  | error e => simp [usecase.ProccedRAB, hload, hreq]
  | ok requester => simp [usecase.ProccedRAB, hload, hreq, hstatus]

/-- C11 on the sample world: the approved request `r2` cannot be resolved
again. -/
theorem ProccedRAB_resolved_witness :
    usecase.ProccedRAB sampleAccessEnv "r2" RequestStatus.REQUEST_ACCESS_BALANCE_STATUS_REJECT
        sampleUser "1234" sampleAccessWorld
      = (sampleAccessWorld, RequestAccessBalance.zero,
          some (utils.ErrorBadRequest ErrorCode.RequestAccessBalanceAlreadyProcced
            "Request already procced")) :=
  (ProccedRAB_resolved sampleAccessEnv "r2" RequestStatus.REQUEST_ACCESS_BALANCE_STATUS_REJECT
    sampleUser "1234" sampleAccessWorld
    (sampleRequest "r2" RequestStatus.REQUEST_ACCESS_BALANCE_STATUS_APPROVE)
    rfl (by decide) (by decide)).2.2.2 sampleNewcomer rfl

/-! ## C12: what a successful resolve persists -/

/-- C12 as stated fails: the decision string is stored as the new status without
any check. Resolving the pending request `r1` with the decision PENDING returns
without error, and the request persisted and returned is still PENDING. -/
theorem ProccedRAB_pending_decision :
    usecase.ProccedRAB sampleAccessEnv "r1" RequestStatus.REQUEST_ACCESS_BALANCE_STATUS_PENDING
        sampleUser "1234" sampleAccessWorld
      = (sampleAccessWorld,
          sampleRequest "r1" RequestStatus.REQUEST_ACCESS_BALANCE_STATUS_PENDING, none)
    ∧ findRequest "r1"
        (usecase.ProccedRAB sampleAccessEnv "r1"
          RequestStatus.REQUEST_ACCESS_BALANCE_STATUS_PENDING sampleUser "1234"
          sampleAccessWorld).1.requests
      = some (sampleRequest "r1" RequestStatus.REQUEST_ACCESS_BALANCE_STATUS_PENDING) := by
  decide

/-- C12, amended. When `ProccedRAB` on a stored PENDING request returns without
error, the request it returns and the request then stored under that ID are the
loaded request with Status set to the decision passed as `status`, whatever that
decision is; and the requester has been granted the requested access level on
the balance (one entry appended to the stored requester's list) when the
decision is APPROVE, while no actor is changed when it is anything else. -/
theorem ProccedRAB_success (env : AccessEnv) (requestID : String) (status : RequestStatus)
    (owner : ActorAble) (pin : String) (w after : AccessWorld)
    (request result : RequestAccessBalance)
    (hread : env.RABByID w requestID = none)
    (hstored : findRequest requestID w.requests = some request)
    (hrun : usecase.ProccedRAB env requestID status owner pin w = (after, result, none)) :
    result = { request with Status := status }
    ∧ findRequest requestID after.requests = some { request with Status := status }
    ∧ ∃ requester, usecase.ActorObjectToActor env request.BalanceRequester w
          = Except.ok requester
        ∧ (status = RequestStatus.REQUEST_ACCESS_BALANCE_STATUS_APPROVE →
            after.actors = replaceActor
              { requester with
                ListBalance := requester.ListBalance ++
                  [{ BalanceID := request.BalanceID, Access := request.Access }] }
              w.actors)
        ∧ (status ≠ RequestStatus.REQUEST_ACCESS_BALANCE_STATUS_APPROVE →
            after.actors = w.actors) := by
  have hload : service.RABByID env requestID w = Except.ok request := by
    simp [service.RABByID, hread, hstored]
  have hfind : ∀ l, findRequest requestID l = some request →
      findRequest requestID (replaceRequest { request with Status := status } l)
        = some { request with Status := status } := fun l hl =>
    findRequest_replace_same _ hl
      (show request.ID.Hex = requestID from findRequest_hex hstored)
  simp only [usecase.ProccedRAB, hload] at hrun
  cases hreq : usecase.ActorObjectToActor env request.BalanceRequester w with
  | error e => simp [hreq] at hrun
  | ok requester =>
    simp only [hreq] at hrun
    split at hrun
    · simp at hrun
    · split at hrun
      · simp at hrun
      · split at hrun
        · simp at hrun
        · cases hpin : env.ValidateActorPIN owner.ActorID pin with
          | some e => simp [hpin] at hrun
          | none =>
            simp only [hpin] at hrun
            by_cases happ : status = RequestStatus.REQUEST_ACCESS_BALANCE_STATUS_APPROVE
            · rw [if_pos happ] at hrun
              simp only [usecase.ActorAddBalance, service.RABUpdateOne] at hrun
              cases hadd : env.ActorAddBalance w requester
                  { BalanceID := request.BalanceID, Access := request.Access } with
              | some e => simp [hadd] at hrun
              | none =>
                simp only [hadd] at hrun
                split at hrun
                · simp at hrun
                · rename_i mid heq
                  split at heq
                  · simp at heq
                  · simp only [Prod.mk.injEq, and_true] at heq hrun
                    obtain ⟨hafter, hresult⟩ := hrun
                    subst hafter
                    subst heq
                    exact ⟨hresult.symm, hfind _ hstored, requester, rfl,
                      fun _ => rfl, fun h => absurd happ h⟩
            · rw [if_neg happ] at hrun
              simp only [service.RABUpdateOne] at hrun
              split at hrun
              · simp at hrun
              · rename_i mid heq
                split at heq
                · simp at heq
                · simp only [Prod.mk.injEq, and_true] at heq hrun
                  obtain ⟨hafter, hresult⟩ := hrun
                  subst hafter
                  subst heq
                  exact ⟨hresult.symm, hfind _ hstored, requester, rfl,
                    fun h => absurd h happ, fun _ => rfl⟩

/-- C12, amended, on the sample world: the owner approves the pending request
`r1` of the newcomer. -/
theorem ProccedRAB_success_witness :
    (usecase.ProccedRAB sampleAccessEnv "r1" RequestStatus.REQUEST_ACCESS_BALANCE_STATUS_APPROVE
        sampleUser "1234" sampleAccessWorld).2.1
      = sampleRequest "r1" RequestStatus.REQUEST_ACCESS_BALANCE_STATUS_APPROVE
    ∧ findRequest "r1"
        (usecase.ProccedRAB sampleAccessEnv "r1"
          RequestStatus.REQUEST_ACCESS_BALANCE_STATUS_APPROVE sampleUser "1234"
          sampleAccessWorld).1.requests
      = some (sampleRequest "r1" RequestStatus.REQUEST_ACCESS_BALANCE_STATUS_APPROVE) :=
  ⟨(ProccedRAB_success sampleAccessEnv "r1" RequestStatus.REQUEST_ACCESS_BALANCE_STATUS_APPROVE
      sampleUser "1234" sampleAccessWorld _ (sampleRequest "r1"
        RequestStatus.REQUEST_ACCESS_BALANCE_STATUS_PENDING) _ rfl (by decide) rfl).1,
   (ProccedRAB_success sampleAccessEnv "r1" RequestStatus.REQUEST_ACCESS_BALANCE_STATUS_APPROVE
      sampleUser "1234" sampleAccessWorld _ (sampleRequest "r1"
        RequestStatus.REQUEST_ACCESS_BALANCE_STATUS_PENDING) _ rfl (by decide) rfl).2.1⟩

/-! ## C13: at most one grant per actor and balance -/

theorem replaceActor_unique {l : List ActorAble} {actor c : ActorAble}
    (hstored : findActor actor.ActorID.Hex l = some actor)
    (hid : c.ActorID.Hex = actor.ActorID.Hex)
    (hkeep : GrantsUnique actor → GrantsUnique c) :
    ∀ actorID after, findActor actorID (replaceActor c l) = some after →
      ∃ before, findActor actorID l = some before
        ∧ (GrantsUnique before → GrantsUnique after) := by
  intro actorID after hafter
  by_cases h : c.ActorID.Hex = actorID
  · have hsame : findActor actorID l = some actor := by rw [← h, hid]; exact hstored
    rw [findActor_replace_same c hsame h] at hafter
    cases hafter
    exact ⟨actor, hsame, hkeep⟩
  · rw [findActor_replace_other h] at hafter
    exact ⟨after, hafter, id⟩

theorem not_already_have {actor : ActorAble} {balanceID : String}
    (h : usecase.IsAccessBalanceAlreadyHave actor balanceID = false) :
    balanceID ∉ actor.ListBalance.map (fun a => a.BalanceID.Hex) := by
  intro hmem
  obtain ⟨a, ha, heq⟩ := List.mem_map.mp hmem
  have : usecase.IsAccessBalanceAlreadyHave actor balanceID = true := by
    simp only [usecase.IsAccessBalanceAlreadyHave, List.any_eq_true, decide_eq_true_eq]
    exact ⟨a, ha, heq⟩
  rw [h] at this
  cases this

theorem ActorAddBalance_unique (env : AccessEnv) (actor : ActorAble) (access : AccessBalance)
    (w : AccessWorld)
    (hstored : findActor actor.ActorID.Hex w.actors = some actor)
    (hnew : usecase.IsAccessBalanceAlreadyHave actor access.BalanceID.Hex = false) :
    ∀ actorID after,
      findActor actorID (usecase.ActorAddBalance env actor access w).1.actors = some after →
      ∃ before, findActor actorID w.actors = some before
        ∧ (GrantsUnique before → GrantsUnique after) := by
  unfold usecase.ActorAddBalance
  cases env.ActorAddBalance w actor access with
  | some e => intro actorID after h; exact ⟨after, h, id⟩
  | none =>
    refine replaceActor_unique hstored rfl ?_
    intro hunique
    simp only [GrantsUnique, List.map_append, List.map_cons, List.map_nil]
    refine List.Nodup.append hunique (List.nodup_singleton _) ?_
    intro x hx hx1
    rw [List.mem_singleton] at hx1
    subst hx1
    exact not_already_have hnew hx

theorem ActorRemoveBalance_unique (env : AccessEnv) (actor : ActorAble) (balanceID : String)
    (w : AccessWorld)
    (hstored : findActor actor.ActorID.Hex w.actors = some actor) :
    ∀ actorID after,
      findActor actorID (usecase.ActorRemoveBalance env actor balanceID w).1.actors
        = some after →
      ∃ before, findActor actorID w.actors = some before
        ∧ (GrantsUnique before → GrantsUnique after) := by
  unfold usecase.ActorRemoveBalance
  cases env.ActorRemoveBalance w actor balanceID with
  | some e => intro actorID after h; exact ⟨after, h, id⟩
  | none =>
    refine replaceActor_unique hstored rfl ?_
    intro hunique
    exact List.Nodup.sublist (List.Sublist.map _ (List.filter_sublist _)) hunique

theorem ActorByID_ok {env : AccessEnv} {actorID : String} {w : AccessWorld} {actor : ActorAble}
    (h : usecase.ActorByID env actorID w = Except.ok actor) :
    findActor actorID w.actors = some actor := by
  unfold usecase.ActorByID at h
  cases hf : env.ActorByID w actorID with
  | some e => simp [hf] at h
  | none =>
    cases hfind : findActor actorID w.actors with
    | none => simp [hf, hfind] at h
    | some a => simp [hf, hfind] at h; rw [h]

theorem ActorObjectToActor_ok {env : AccessEnv} {object : ActorObject} {w : AccessWorld}
    {actor : ActorAble} (h : usecase.ActorObjectToActor env object w = Except.ok actor) :
    findActor object.ID.Hex w.actors = some actor := by
  unfold usecase.ActorObjectToActor at h
  cases hf : env.ActorObjectToActor w object with
  | some e => simp [hf] at h
  | none =>
    cases hfind : findActor object.ID.Hex w.actors with
    | none => simp [hf, hfind] at h
    | some a => simp [hf, hfind] at h; rw [h]

theorem BalanceByIDNoSession_ok {env : AccessEnv} {balanceID : String} {w : AccessWorld}
    {balance : Balance} (h : service.BalanceByIDNoSession env balanceID w = Except.ok balance) :
    service.findBalance balanceID w.balances = some balance := by
  unfold service.BalanceByIDNoSession at h
  cases hf : env.BalanceByIDNoSession w balanceID with
  | some e => simp [hf] at h
  | none =>
    cases hfind : service.findBalance balanceID w.balances with
    | none => simp [hf, hfind] at h
    | some a => simp [hf, hfind] at h; rw [h]

theorem ShareBalance_unique (env : AccessEnv) (corporate : Corporate)
    (balanceID access target pin : String) (w : AccessWorld) :
    ∀ actorID after,
      findActor actorID
          (usecase.ShareBalance env corporate balanceID access target pin w).1.actors
        = some after →
      ∃ before, findActor actorID w.actors = some before
        ∧ (GrantsUnique before → GrantsUnique after) := by
  have same : ∀ actorID after, findActor actorID w.actors = some after →
      ∃ before, findActor actorID w.actors = some before
        ∧ (GrantsUnique before → GrantsUnique after) := fun _ after h => ⟨after, h, id⟩
  unfold usecase.ShareBalance
  cases env.ValidateActorPIN corporate.ID pin with
  | some e => exact same
  | none =>
    cases hbal : service.BalanceByIDNoSession env balanceID w with
    | error e => exact same
    | ok balance =>
      simp only
      split
      · exact same
      · cases hact : usecase.ActorByID env target w with
        | error e => exact same
        | ok actor =>
          simp only
          split
          · exact same
          · split
            · exact same
            · split
              · exact same
              · rename_i hnot
                have hstored := ActorByID_ok hact
                have hid : actor.ActorID.Hex = target := findActor_hex hstored
                have hbid : balance.ID.Hex = balanceID :=
                  findBalance_hex (BalanceByIDNoSession_ok hbal)
                refine ActorAddBalance_unique env actor _ w (by rw [hid]; exact hstored) ?_
                simp only [hbid]
                simpa using hnot

theorem RevokeBalance_unique (env : AccessEnv) (corporate : Corporate)
    (balanceID revokeFrom pin : String) (w : AccessWorld) :
    ∀ actorID after,
      findActor actorID
          (usecase.RevokeBalance env corporate balanceID revokeFrom pin w).1.actors
        = some after →
      ∃ before, findActor actorID w.actors = some before
        ∧ (GrantsUnique before → GrantsUnique after) := by
  have same : ∀ actorID after, findActor actorID w.actors = some after →
      ∃ before, findActor actorID w.actors = some before
        ∧ (GrantsUnique before → GrantsUnique after) := fun _ after h => ⟨after, h, id⟩
  unfold usecase.RevokeBalance
  cases env.ValidateActorPIN corporate.ID pin with
  | some e => exact same
  | none =>
    cases hbal : service.BalanceByIDNoSession env balanceID w with
    | error e => exact same
    | ok balance =>
      simp only
      split
      · exact same
      · cases hact : usecase.ActorByID env revokeFrom w with
        | error e => exact same
        | ok actor =>
          simp only
          split
          · exact same
          · have hstored := ActorByID_ok hact
            have hid : actor.ActorID.Hex = revokeFrom := findActor_hex hstored
            exact ActorRemoveBalance_unique env actor balanceID w (by rw [hid]; exact hstored)

theorem RABUpdateOne_actors (env : AccessEnv) (request : RequestAccessBalance)
    (w : AccessWorld) : (service.RABUpdateOne env request w).1.actors = w.actors := by
  unfold service.RABUpdateOne
  cases env.RABUpdateOne w request <;> rfl

theorem ProccedRAB_unique (env : AccessEnv) (requestID : String) (status : RequestStatus)
    (owner : ActorAble) (pin : String) (w : AccessWorld) :
    ∀ actorID after,
      findActor actorID (usecase.ProccedRAB env requestID status owner pin w).1.actors
        = some after →
      ∃ before, findActor actorID w.actors = some before
        ∧ (GrantsUnique before → GrantsUnique after) := by
  have same : ∀ actorID after, findActor actorID w.actors = some after →
      ∃ before, findActor actorID w.actors = some before
        ∧ (GrantsUnique before → GrantsUnique after) := fun _ after h => ⟨after, h, id⟩
  unfold usecase.ProccedRAB
  cases hload : service.RABByID env requestID w with
  | error e => exact same
  | ok request =>
    simp only
    cases hreq : usecase.ActorObjectToActor env request.BalanceRequester w with
    | error e => exact same
    | ok requester =>
      simp only
      by_cases hstatus : request.Status ≠ RequestStatus.REQUEST_ACCESS_BALANCE_STATUS_PENDING
      · rw [if_pos hstatus]; exact same
      · rw [if_neg hstatus]
        by_cases hhave : usecase.IsAccessBalanceAlreadyHave requester request.BalanceID.Hex = true
        · rw [if_pos hhave]; exact same
        · rw [if_neg hhave]
          by_cases howner : ¬ env.IsBalanceOwner owner request.BalanceID.Hex = true
          · rw [if_pos howner]; exact same
          · rw [if_neg howner]
            cases env.ValidateActorPIN owner.ActorID pin with
            | some e => exact same
            | none =>
              simp only
              by_cases happ : status = RequestStatus.REQUEST_ACCESS_BALANCE_STATUS_APPROVE
              · rw [if_pos happ]
                have hstored := ActorObjectToActor_ok hreq
                have hid : requester.ActorID.Hex = request.BalanceRequester.ID.Hex :=
                  findActor_hex hstored
                have hadd := ActorAddBalance_unique env requester
                  { BalanceID := request.BalanceID, Access := request.Access } w
                  (by rw [hid]; exact hstored) (by simpa using hhave)
                cases hrun : usecase.ActorAddBalance env requester
                    { BalanceID := request.BalanceID, Access := request.Access } w with
                | mk mid err =>
                  rw [hrun] at hadd
                  cases err with
                  | some e => exact hadd
                  | none =>
                    simp only
                    intro actorID after hafter
                    apply hadd actorID after
                    rw [← RABUpdateOne_actors env { request with Status := status } mid]
                    revert hafter
                    cases service.RABUpdateOne env { request with Status := status } mid with
                    | mk last err2 => cases err2 <;> exact id
              · rw [if_neg happ]
                intro actorID after hafter
                apply same actorID after
                rw [← RABUpdateOne_actors env { request with Status := status } w]
                revert hafter
                cases service.RABUpdateOne env { request with Status := status } w with
                | mk last err2 => cases err2 <;> exact id

theorem runCall_unique (env : AccessEnv) (call : AccessCall) (w : AccessWorld) :
    ∀ actorID after, findActor actorID (runCall env call w).actors = some after →
      ∃ before, findActor actorID w.actors = some before
        ∧ (GrantsUnique before → GrantsUnique after) := by
  cases call with
  | ShareBalance corporate balanceID access target pin =>
    exact ShareBalance_unique env corporate balanceID access target pin w
  | RevokeBalance corporate balanceID revokeFrom pin =>
    exact RevokeBalance_unique env corporate balanceID revokeFrom pin w
  | ProccedRAB requestID status owner pin =>
    exact ProccedRAB_unique env requestID status owner pin w

theorem runCalls_unique (env : AccessEnv) (calls : List AccessCall) (w : AccessWorld) :
    ∀ actorID after, findActor actorID (runCalls env calls w).actors = some after →
      ∃ before, findActor actorID w.actors = some before
        ∧ (GrantsUnique before → GrantsUnique after) := by
  induction calls generalizing w with
  | nil => intro actorID after h; exact ⟨after, h, id⟩
  | cons call rest ih =>
    intro actorID after hafter
    obtain ⟨mid, hmid, hkeep⟩ := ih (runCall env call w) actorID after hafter
    obtain ⟨before, hbefore, hkeep0⟩ := runCall_unique env call w actorID mid hmid
    exact ⟨before, hbefore, fun h => hkeep (hkeep0 h)⟩

theorem ShareBalance_already (env : AccessEnv) (corporate : Corporate)
    (balanceID access target pin : String) (w : AccessWorld) (actor : ActorAble)
    (hstored : findActor target w.actors = some actor)
    (hhave : usecase.IsAccessBalanceAlreadyHave actor balanceID = true) :
    ∃ e, usecase.ShareBalance env corporate balanceID access target pin w = (w, some e) := by
  unfold usecase.ShareBalance
  cases env.ValidateActorPIN corporate.ID pin with
  | some e => exact ⟨_, rfl⟩
  | none =>
    cases service.BalanceByIDNoSession env balanceID w with
    | error e => exact ⟨_, rfl⟩
    | ok balance =>
      simp only
      by_cases hown : balance.OwnerType = ""
      · rw [if_pos hown]; exact ⟨_, rfl⟩
      · rw [if_neg hown]
        cases hact : usecase.ActorByID env target w with
        | error e => exact ⟨_, rfl⟩
        | ok found =>
          simp only
          have hfound : found = actor := by
            have := ActorByID_ok hact
            rw [hstored] at this
            cases this
            rfl
          subst hfound
          by_cases hacc : access ≠ env.ACCESS_BALANCE_SHARED ∧ access ≠ env.ACCESS_BALANCE_VIEW_ONLY
          · rw [if_pos hacc]; exact ⟨_, rfl⟩
          · rw [if_neg hacc]
            by_cases hscope : balance.CorporateID ≠ corporate.ID
            · rw [if_pos hscope]; exact ⟨_, rfl⟩
            · rw [if_neg hscope, if_pos hhave]; exact ⟨_, rfl⟩

/-- C13. After any sequence of `ShareBalance`, `RevokeBalance` and `ProccedRAB`
calls, successful or failed, every stored actor is an actor that was stored
before the sequence, and if its balance-access list held at most one entry per
balance ID before, it still does. In particular `ShareBalance` to a stored
actor who already holds any grant on the balance fails and leaves the world as
it was (no grant appended), and the error is AccessBalanceAlreadyHave once the
checks that the code makes before it (PIN, balance found with an owner, target
actor loaded, access level SHARED or VIEW_ONLY, balance in the corporate's scope)
have passed. -/
theorem grants_stay_unique (env : AccessEnv) (calls : List AccessCall) (w : AccessWorld) :
    (∀ actorID after, findActor actorID (runCalls env calls w).actors = some after →
      ∃ before, findActor actorID w.actors = some before
        ∧ (GrantsUnique before → GrantsUnique after))
    ∧ ∀ (corporate : Corporate) (balanceID access target pin : String) (actor : ActorAble),
        findActor target w.actors = some actor →
        usecase.IsAccessBalanceAlreadyHave actor balanceID = true →
        (usecase.ShareBalance env corporate balanceID access target pin w).1 = w
        ∧ (usecase.ShareBalance env corporate balanceID access target pin w).2 ≠ none
        ∧ ∀ balance, env.ValidateActorPIN corporate.ID pin = none →
            service.BalanceByIDNoSession env balanceID w = Except.ok balance →
            balance.OwnerType ≠ "" →
            env.ActorByID w target = none →
            (access = env.ACCESS_BALANCE_SHARED ∨ access = env.ACCESS_BALANCE_VIEW_ONLY) →
            balance.CorporateID = corporate.ID →
            usecase.ShareBalance env corporate balanceID access target pin w
              = (w, some (utils.ErrorBadRequest ErrorCode.AccessBalanceAlreadyHave
                  "Access balance already have")) := by
  refine ⟨runCalls_unique env calls w, ?_⟩
  intro corporate balanceID access target pin actor hstored hhave
  obtain ⟨e, he⟩ := ShareBalance_already env corporate balanceID access target pin w actor
    hstored hhave
  refine ⟨by rw [he], by rw [he]; simp, ?_⟩
  intro balance hpin hbal hown hact hacc hscope
  have hacc2 : ¬ (access ≠ env.ACCESS_BALANCE_SHARED ∧ access ≠ env.ACCESS_BALANCE_VIEW_ONLY) := by
    intro h
    rcases hacc with h1 | h1
    · exact h.1 h1
    · exact h.2 h1
  simp only [usecase.ShareBalance, hpin, hbal, hown, if_false, usecase.ActorByID, hact, hstored]
  rw [if_neg hacc2, if_neg (by simp [hscope]), if_pos hhave]

/-- C13 on the sample world: sharing balance `a` with the guest, who holds
VIEW_ONLY on it, is refused with AccessBalanceAlreadyHave and changes nothing;
and after sharing with the newcomer, approving the newcomer's pending request
and sharing again, the newcomer's list has one entry per balance. -/
theorem grants_stay_unique_witness :
    usecase.ShareBalance sampleAccessEnv sampleCorporate "a" "SHARED" "guest" "1234"
        sampleAccessWorld
      = (sampleAccessWorld, some (utils.ErrorBadRequest ErrorCode.AccessBalanceAlreadyHave
          "Access balance already have"))
    ∧ ∃ after, findActor "newcomer" (runCalls sampleAccessEnv
          [AccessCall.ShareBalance sampleCorporate "a" "SHARED" "newcomer" "1234",
           AccessCall.ProccedRAB "r1" RequestStatus.REQUEST_ACCESS_BALANCE_STATUS_APPROVE
             sampleUser "1234",
           AccessCall.ShareBalance sampleCorporate "a" "VIEW_ONLY" "newcomer" "1234"]
          sampleAccessWorld).actors = some after
        ∧ GrantsUnique after := by
  have h := grants_stay_unique sampleAccessEnv
    [AccessCall.ShareBalance sampleCorporate "a" "SHARED" "newcomer" "1234",
     AccessCall.ProccedRAB "r1" RequestStatus.REQUEST_ACCESS_BALANCE_STATUS_APPROVE
       sampleUser "1234",
     AccessCall.ShareBalance sampleCorporate "a" "VIEW_ONLY" "newcomer" "1234"]
    sampleAccessWorld
  refine ⟨(h.2 sampleCorporate "a" "SHARED" "guest" "1234" sampleGuest (by decide)
      (by decide)).2.2 (sampleBalance "a" 100) rfl rfl (by decide) rfl (Or.inl rfl) rfl, ?_⟩
  obtain ⟨before, hbefore, hkeep⟩ := h.1 "newcomer"
    { sampleNewcomer with ListBalance := [{ BalanceID := ⟨"a"⟩, Access := "SHARED" }] }
    (by decide)
  have hb : before = sampleNewcomer := by
    have : findActor "newcomer" sampleAccessWorld.actors = some sampleNewcomer := by decide
    rw [this] at hbefore
    cases hbefore
    rfl
  exact ⟨_, by decide, hkeep (by rw [hb]; decide)⟩
